import Mathlib

/-!
# Grow-a-Garden stock notifier: embedding of `src/index.js`

The program keeps two mutable stores, `stockChannels` (a JavaScript `Map`
from guild id to channel) and `lastStockMessages` (a plain object from the
string key `guildId:type` to the last message sent), and runs two
notification passes, `fetchAndNotifyWeather` and `fetchAndNotifyStock`, plus
two discovery handlers (`guildCreate`, `ready`).

The embedding is state passing.  Everything the program asks of the outside
world (HTTP requests, message send and delete, channel creation, the clock)
is answered by an `Env`; every request the program issues is recorded, in
program order, as an `Event`.  A `try`/`catch` pair is modelled by a function
for the `try` block that reports the thrown error in `Run.thrown`, and a
wrapper that turns it into the log line of the `catch` block.

Modelling decisions:
* one pass runs against the registry as it stands when the pass starts; the
  interleaving of several asynchronous passes is outside the model;
* `EmbedBuilder` builds a record and throws, inside the `try` block that
  calls it, when a text breaks a length limit of the chat library
  (discord.js 14, outside `src/`); the limits are those of `embedError`;
* a decoded body is the record of the properties the program reads, typed as
  the upstream interface documents them; `none` stands for the JSON `null`;
* message handles are natural numbers.
-/

namespace GrowAGarden

/-! ## Data model -/

abbrev GuildId := String

/-- Handle of a sent message. -/
abbrev Message := Nat

/-- The numeric value of `ChannelType.GuildText`. -/
def GuildText : Nat := 0

structure Channel where
  id : String
  name : String
  type : Nat
deriving DecidableEq, Repr

inductive Permission where
  | ViewChannel
  | SendMessages
deriving DecidableEq, Repr

structure PermissionOverwrite where
  id : String
  allow : List Permission
  deny : List Permission
deriving DecidableEq, Repr

/-- Argument of `guild.channels.create`. -/
structure ChannelCreate where
  name : String
  type : Nat
  permissionOverwrites : List PermissionOverwrite
deriving DecidableEq, Repr

structure Guild where
  id : GuildId
  name : String
  /-- The entries of `guild.channels.cache`, in iteration order. -/
  channels : List Channel
  /-- The id of `guild.roles.everyone`. -/
  everyone : String
deriving DecidableEq, Repr

structure EmbedField where
  name : String
  value : String
  inline : Bool
deriving DecidableEq, Repr

structure Embed where
  title : String
  color : Nat
  description : Option String
  fields : List EmbedField
  timestamp : Nat
  footer : String
deriving DecidableEq, Repr

structure StockItem where
  name : String
deriving DecidableEq, Repr

structure Countdown where
  formatted : Option String
deriving DecidableEq, Repr

/-- A decoded response body: the properties the program reads from it, each
`none` when the property is missing. -/
structure Data where
  effect : Option String
  bonus : Option String
  mutation : Option String
  items : Option (List StockItem)
  countdown : Option Countdown
deriving DecidableEq, Repr

/-- What `fetch` resolves to.  `json` is the outcome of `res.json()`: it
throws, or yields the decoded body (`none` for the JSON `null`). -/
structure Response where
  status : Nat
  json : Except String (Option Data)

/-- The answers of the outside world during one handler run. -/
structure Env where
  /-- The value of `new Date()`. -/
  now : Nat
  /-- The value of `client.user.id`. -/
  clientUserId : String
  /-- The value of `client.user.tag`. -/
  clientUserTag : String
  fetch : String → Except String Response
  send : GuildId → Channel → Embed → Except String Message
  delete : Message → Except String Unit
  create : Guild → ChannelCreate → Except String Channel

/-- A request issued by the program, or a console line it printed. -/
inductive Event where
  | fetch (url : String)
  | send (guildId : GuildId) (channel : Channel) (embed : Embed)
  | delete (guildId : GuildId) (message : Message) (succeeded : Bool)
  | create (guildId : GuildId) (options : ChannelCreate)
  | log (text : String)
  | warn (text : String)
  | error (text : String)
  | callWeather
  | callStock (type : String)
  | setInterval (type : String) (interval : Nat)
deriving DecidableEq, Repr

/-- The two module-level stores. -/
structure State where
  /-- The entries of the `Map` `stockChannels`, in insertion order. -/
  stockChannels : List (GuildId × Channel)
  /-- The own properties of the object `lastStockMessages`. -/
  lastStockMessages : List (String × Message)
deriving DecidableEq, Repr

/-- Outcome of running a block of the program. -/
structure Run where
  state : State
  events : List Event
  /-- The message of the error the block threw, if it threw. -/
  thrown : Option String
deriving DecidableEq, Repr

/-! ## Keyed stores -/

/-- Reading a key of a `Map` or of an object: `m.get(k)`, `o[k]`. -/
def assocGet {β : Type} (k : String) : List (String × β) → Option β
  | [] => none
  | (k1, v1) :: rest => if k1 = k then some v1 else assocGet k rest

/-- Writing a key of a `Map` or of an object: `m.set(k, v)`, `o[k] = v`.  An
existing key keeps its position, a new key goes last. -/
def assocSet {β : Type} (k : String) (v : β) : List (String × β) → List (String × β)
  | [] => [(k, v)]
  | (k1, v1) :: rest => if k1 = k then (k, v) :: rest else (k1, v1) :: assocSet k v rest

/-! ## Constants -/

def BASE_URL : String := "https://growagardenstock.vercel.app"

structure Endpoint where
  url : String
  interval : Nat
deriving DecidableEq, Repr

def STOCK_ENDPOINTS : List (String × Endpoint) :=
  [ ("gear", ⟨"/api/stock/gear", 5 * 60 * 1000⟩),
    ("seeds", ⟨"/api/stock/seeds", 5 * 60 * 1000⟩),
    ("egg", ⟨"/api/stock/egg", 30 * 60 * 1000⟩),
    ("honey", ⟨"/api/stock/honey", 60 * 60 * 1000⟩),
    ("cosmetics", ⟨"/api/stock/cosmetics", 4 * 60 * 60 * 1000⟩) ]

/-- The value of `Object.keys(STOCK_ENDPOINTS)`: the fixed set of categories. -/
def categories : List String := STOCK_ENDPOINTS.map Prod.fst

def CHANNEL_NAME : String := "🌱-grow-a-garden-stock-notifier"

/-! ## JavaScript helpers -/

/-- The expression `v || d` for a string-or-missing `v`: the empty string is
falsy, like a missing value. -/
def orDefault (v : Option String) (d : String) : String :=
  match v with
  | some s => if s = "" then d else s
  | none => d

/-- The method `toUpperCase` on texts of ASCII characters, which is what the
names `STOCK_ENDPOINTS` answers to are. -/
def toUpperCase (s : String) : String := ⟨s.data.map Char.toUpper⟩

/-- The property `length` of a JavaScript string: its number of UTF-16 code
units, two for a character outside the basic plane. -/
def jsLength (s : String) : Nat :=
  (s.data.map fun c => if c.toNat < 0x10000 then 1 else 2).sum

/-- A text of at least one and at most `max` code units. -/
def lengthWithin (max : Nat) (s : String) : Bool :=
  decide (1 ≤ jsLength s ∧ jsLength s ≤ max)

/-- The error the setters of `EmbedBuilder` throw for a record, if any.  The
builder of discord.js 14 checks every text when it is set: title 1 to 256
code units, colour up to `0xffffff`, description 1 to 4096, at most 25 fields
with a name of 1 to 256 and a value of 1 to 1024, footer text 1 to 2048.  The
checks stand in the order of the calls of lines 35-44 and 65-74. -/
def embedError (e : Embed) : Option String :=
  if !lengthWithin 256 e.title then some "Received one or more errors"
  else if !decide (e.color ≤ 0xffffff) then some "Received one or more errors"
  else if !(match e.description with
      | none => true
      | some d => lengthWithin 4096 d) then some "Received one or more errors"
  else if !decide (e.fields.length ≤ 25) then some "Received one or more errors"
  else if !e.fields.all (fun f => lengthWithin 256 f.name && lengthWithin 1024 f.value) then
    some "Received one or more errors"
  else if !lengthWithin 2048 e.footer then some "Received one or more errors"
  else none

/-- The names every object inherits from `Object.prototype`; reading one of
them on `STOCK_ENDPOINTS` yields a value without a property `url`. -/
def OBJECT_PROTOTYPE_KEYS : List String :=
  [ "constructor", "__defineGetter__", "__defineSetter__", "hasOwnProperty",
    "__lookupGetter__", "__lookupSetter__", "isPrototypeOf", "propertyIsEnumerable",
    "toString", "valueOf", "__proto__", "toLocaleString" ]

/-- The tracker key, the template literal of lines 78 and 82. -/
def trackerKey (guildId : GuildId) (type : String) : String :=
  guildId ++ ":" ++ type

/-! ## Weather pass (lines 29-54) -/

def weatherEmbed (data : Data) (now : Nat) : Embed :=
  { title := "⛅ Weather Update"
    color := 0x3498db
    description := none
    fields :=
      [ ⟨"🌿 Effect", orDefault data.effect "None", true⟩,
        ⟨"✨ Bonus", orDefault data.bonus "None", true⟩,
        ⟨"🧬 Mutation", orDefault data.mutation "None", true⟩ ]
    timestamp := now
    footer := "Weather updates every 2 minutes" }

/-- The console lines of the `.catch` callbacks of line 47, one per rejected
send.  The sends are not awaited, so the callbacks run after the loop. -/
def weatherWarns (env : Env) (embed : Embed) : List (GuildId × Channel) → List Event
  | [] => []
  | (guildId, channel) :: rest =>
    (match env.send guildId channel embed with
      | .ok _ => []
      | .error e => [Event.warn ("❌ [" ++ guildId ++ "] Failed to send weather: " ++ e)])
    ++ weatherWarns env embed rest

/-- The loop of lines 46-50: one send per registry entry, then the console
lines of the rejected sends. -/
def weatherLoop (env : Env) (embed : Embed) (registry : List (GuildId × Channel)) :
    List Event :=
  (registry.map fun p => Event.send p.1 p.2 embed) ++ weatherWarns env embed registry

/-- The `try` block of `fetchAndNotifyWeather`, lines 31-50. -/
def fetchAndNotifyWeatherTry (env : Env) (st : State) : Run :=
  let url := BASE_URL ++ "/api/weather"
  match env.fetch url with
  | .error e => ⟨st, [Event.fetch url], some e⟩
  | .ok res =>
    match res.json with
    | .error e => ⟨st, [Event.fetch url], some e⟩
    | .ok none => ⟨st, [Event.fetch url], none⟩
    | .ok (some data) =>
      match embedError (weatherEmbed data env.now) with
      | some e => ⟨st, [Event.fetch url], some e⟩
      | none =>
        ⟨st, Event.fetch url :: weatherLoop env (weatherEmbed data env.now) st.stockChannels,
          none⟩

def fetchAndNotifyWeather (env : Env) (st : State) : Run :=
  let r := fetchAndNotifyWeatherTry env st
  match r.thrown with
  | none => r
  | some e => ⟨r.state, r.events ++ [Event.error ("❌ Error fetching weather: " ++ e)], none⟩

/-! ## Stock pass (lines 57-90) -/

def stockEmbed (type : String) (data : Data) (now : Nat) : Embed :=
  { title := "🪴 " ++ toUpperCase type ++ " STOCK ALERT"
    color := 0x00c851
    description :=
      some (String.intercalate "\n"
        ((data.items.getD []).map fun item => "• **" ++ item.name ++ "** is now in stock!"))
    fields := [⟨"⏳ Next Update", orDefault (data.countdown.bind Countdown.formatted) "Unknown", false⟩]
    timestamp := now
    footer := "Grow A Garden Stock Notifier" }

/-- The events of retracting the previous message, line 79: nothing when no
message is tracked, otherwise one delete whose rejection is swallowed. -/
def retract (env : Env) (guildId : GuildId) : Option Message → List Event
  | none => []
  | some prev =>
    match env.delete prev with
    | .ok _ => [Event.delete guildId prev true]
    | .error _ => [Event.delete guildId prev false]

/-- The loop of lines 76-86 over the registry entries, threading the tracker. -/
def stockLoop (env : Env) (type : String) (embed : Embed) :
    List (GuildId × Channel) → List (String × Message) → List (String × Message) × List Event
  | [], tracker => (tracker, [])
  | (guildId, channel) :: rest, tracker =>
    let prev := assocGet (trackerKey guildId type) tracker
    let evDelete := retract env guildId prev
    match env.send guildId channel embed with
    | .ok sent =>
      let r := stockLoop env type embed rest (assocSet (trackerKey guildId type) sent tracker)
      (r.1, evDelete ++ [Event.send guildId channel embed] ++ r.2)
    | .error e =>
      let r := stockLoop env type embed rest tracker
      (r.1, evDelete ++
        [Event.send guildId channel embed,
         Event.warn ("❌ [" ++ guildId ++ "] Failed to send stock for " ++ type ++ ": " ++ e)]
        ++ r.2)

/-- The text that `STOCK_ENDPOINTS[type].url` contributes to the template
literal of line 60: the path of an own key, the text `undefined` for a name
inherited from `Object.prototype`, and nothing for any other name, where
the property read throws. -/
def endpointPath (type : String) : Option String :=
  match assocGet type STOCK_ENDPOINTS with
  | some endpoint => some endpoint.url
  | none => if type ∈ OBJECT_PROTOTYPE_KEYS then some "undefined" else none

/-- Lines 60-86 once the refresh request has resolved and the address of the
stock request is known. -/
def fetchAndNotifyStockFrom (env : Env) (type : String) (st : State) (url : String) : Run :=
  let refreshUrl := BASE_URL ++ "/api/refresh"
  match env.fetch url with
  | .error e => ⟨st, [Event.fetch refreshUrl, Event.fetch url], some e⟩
  | .ok res =>
    match res.json with
    | .error e => ⟨st, [Event.fetch refreshUrl, Event.fetch url], some e⟩
    | .ok none =>
      ⟨st, [Event.fetch refreshUrl, Event.fetch url],
        some "Cannot read properties of null (reading 'items')"⟩
    | .ok (some data) =>
      let items := data.items.getD []
      if items.length = 0 then ⟨st, [Event.fetch refreshUrl, Event.fetch url], none⟩
      else
        match embedError (stockEmbed type data env.now) with
        | some e => ⟨st, [Event.fetch refreshUrl, Event.fetch url], some e⟩
        | none =>
          let r := stockLoop env type (stockEmbed type data env.now)
            st.stockChannels st.lastStockMessages
          ⟨⟨st.stockChannels, r.1⟩, [Event.fetch refreshUrl, Event.fetch url] ++ r.2, none⟩

/-- The `try` block of `fetchAndNotifyStock`, lines 59-86. -/
def fetchAndNotifyStockTry (env : Env) (type : String) (st : State) : Run :=
  let refreshUrl := BASE_URL ++ "/api/refresh"
  match env.fetch refreshUrl with
  | .error e => ⟨st, [Event.fetch refreshUrl], some e⟩
  | .ok _ =>
    match endpointPath type with
    | none =>
      ⟨st, [Event.fetch refreshUrl], some "Cannot read properties of undefined (reading 'url')"⟩
    | some path => fetchAndNotifyStockFrom env type st (BASE_URL ++ path)

def fetchAndNotifyStock (env : Env) (type : String) (st : State) : Run :=
  let r := fetchAndNotifyStockTry env type st
  match r.thrown with
  | none => r
  | some e =>
    ⟨r.state, r.events ++ [Event.error ("❌ Error fetching stock for " ++ type ++ ": " ++ e)], none⟩

/-- Consecutive stock passes for one category, each with its own answers of
the outside world; returns the final state and the events of each pass. -/
def stockPasses (type : String) : List Env → State → State × List (List Event)
  | [], st => (st, [])
  | env :: rest, st =>
    let r := fetchAndNotifyStock env type st
    let q := stockPasses type rest r.state
    (q.1, r.events :: q.2)

/-! ## Group discovery (lines 93-166) -/

/-- The lookup of lines 96-98 and 135-137: the first cached channel with the
notifier name and the text type. -/
def findChannel (guild : Guild) : Option Channel :=
  guild.channels.find? fun ch => decide (ch.name = CHANNEL_NAME ∧ ch.type = GuildText)

/-- The creation request of the `guildCreate` handler, lines 101-115. -/
def guildCreateOptions (env : Env) (guild : Guild) : ChannelCreate :=
  { name := CHANNEL_NAME
    type := GuildText
    permissionOverwrites :=
      [ ⟨guild.everyone, [Permission.ViewChannel], [Permission.SendMessages]⟩,
        ⟨env.clientUserId, [Permission.SendMessages], []⟩ ] }

/-- The creation request of the `ready` handler, lines 140-149. -/
def readyOptions (guild : Guild) : ChannelCreate :=
  { name := CHANNEL_NAME
    type := GuildText
    permissionOverwrites :=
      [ ⟨guild.everyone, [Permission.ViewChannel, Permission.SendMessages], []⟩ ] }

/-- The calls of lines 120-123, started and not awaited. -/
def catchUpCalls : List Event :=
  Event.callWeather :: categories.map Event.callStock

/-- The `try` block of the `guildCreate` handler, lines 95-123. -/
def guildCreateTry (env : Env) (guild : Guild) (st : State) : Run :=
  let joined := Event.log ("➕ Joined new guild: " ++ guild.name)
  match findChannel guild with
  | some channel =>
    ⟨⟨assocSet guild.id channel st.stockChannels, st.lastStockMessages⟩,
      joined :: catchUpCalls, none⟩
  | none =>
    let options := guildCreateOptions env guild
    match env.create guild options with
    | .error e => ⟨st, [joined, Event.create guild.id options], some e⟩
    | .ok channel =>
      ⟨⟨assocSet guild.id channel st.stockChannels, st.lastStockMessages⟩,
        [joined, Event.create guild.id options,
         Event.log ("✅ Created 'stock-notifier' in " ++ guild.name)] ++ catchUpCalls, none⟩

def guildCreate (env : Env) (guild : Guild) (st : State) : Run :=
  let r := guildCreateTry env guild st
  match r.thrown with
  | none => r
  | some e =>
    ⟨r.state,
      r.events ++ [Event.error ("❌ Error in guildCreate for " ++ guild.name ++ ": " ++ e)], none⟩

/-- The `try` block inside the loop of the `ready` handler, lines 135-155. -/
def readyGuildTry (env : Env) (guild : Guild) (st : State) : Run :=
  match findChannel guild with
  | some channel =>
    ⟨⟨assocSet guild.id channel st.stockChannels, st.lastStockMessages⟩,
      [Event.log ("✅ Found existing 'stock-notifier' in " ++ guild.name)], none⟩
  | none =>
    let options := readyOptions guild
    match env.create guild options with
    | .error e => ⟨st, [Event.create guild.id options], some e⟩
    | .ok channel =>
      ⟨⟨assocSet guild.id channel st.stockChannels, st.lastStockMessages⟩,
        [Event.create guild.id options,
         Event.log ("✅ Created 'stock-notifier' in " ++ guild.name)], none⟩

/-- The body of the loop of the `ready` handler, lines 134-158. -/
def readyGuild (env : Env) (guild : Guild) (st : State) : Run :=
  let r := readyGuildTry env guild st
  match r.thrown with
  | none => r
  | some e =>
    ⟨r.state,
      r.events ++ [Event.error ("❌ Error initializing guild " ++ guild.name ++ ": " ++ e)], none⟩

/-- The loop of lines 133-159 over `client.guilds.cache.values()`. -/
def readyLoop (env : Env) : List Guild → State → State × List Event
  | [], st => (st, [])
  | guild :: rest, st =>
    let r := readyGuild env guild st
    let q := readyLoop env rest r.state
    (q.1, r.events ++ q.2)

/-- The loop of lines 162-165: one immediate call and one timer per category. -/
def startUpdates : List (String × Endpoint) → List Event
  | [] => []
  | (type, endpoint) :: rest =>
    Event.callStock type :: Event.setInterval type endpoint.interval :: startUpdates rest

/-- The `ready` handler, lines 130-166. -/
def ready (env : Env) (guilds : List Guild) (st : State) : Run :=
  let r := readyLoop env guilds st
  ⟨r.1, [Event.log ("🌱 Logged in as " ++ env.clientUserTag)] ++ r.2 ++ startUpdates STOCK_ENDPOINTS,
    none⟩

/-- Discovery run several times in a row for one group; each entry of the
list names the handler of one run, `true` for the loop body of `ready` and
`false` for `guildCreate`. -/
def discover (env : Env) (guild : Guild) : List Bool → State → State × List Event
  | [], st => (st, [])
  | fromReady :: rest, st =>
    let r := if fromReady then readyGuild env guild st else guildCreate env guild st
    let q := discover env guild rest r.state
    (q.1, r.events ++ q.2)

/-! ## Reading the event record -/

/-- The sends of a record, in order. -/
def sends : List Event → List (GuildId × Channel × Embed)
  | [] => []
  | Event.send g ch e :: rest => (g, ch, e) :: sends rest
  | _ :: rest => sends rest

/-- The retraction attempts of a record, in order, each with the group whose
loop iteration made it. -/
def deletes : List Event → List (GuildId × Message)
  | [] => []
  | Event.delete g m _ :: rest => (g, m) :: deletes rest
  | _ :: rest => deletes rest

/-- The handles a record tried to retract for one group. -/
def retractions (guildId : GuildId) (events : List Event) : List Message :=
  ((deletes events).filter fun p => decide (p.1 = guildId)).map Prod.snd

/-- The channel creation requests of a record. -/
def creates : List Event → List (GuildId × ChannelCreate)
  | [] => []
  | Event.create g o :: rest => (g, o) :: creates rest
  | _ :: rest => creates rest

/-- The HTTP requests of a record. -/
def fetches : List Event → List String
  | [] => []
  | Event.fetch url :: rest => url :: fetches rest
  | _ :: rest => fetches rest

end GrowAGarden
namespace GrowAGarden

/-! ## Conditions on the answers of the outside world -/

/-- The pass for `type` gets the decoded body `data`: the refresh request
resolves, `type` is a key of `STOCK_ENDPOINTS`, the stock request resolves and
its body decodes to `data`. -/
def Fetched (env : Env) (type : String) (data : Data) : Prop :=
  ∃ endpoint r0 res, assocGet type STOCK_ENDPOINTS = some endpoint ∧
    env.fetch (BASE_URL ++ "/api/refresh") = .ok r0 ∧
    env.fetch (BASE_URL ++ endpoint.url) = .ok res ∧ res.json = .ok (some data)

/-- The request to `url` fails: it throws, or its body fails to decode. -/
def FetchFails (env : Env) (url : String) : Prop :=
  (∃ e, env.fetch url = .error e) ∨ ∃ res e, env.fetch url = .ok res ∧ res.json = .error e

/-! ## The alert text as the specification words it -/

/-- One bullet line of a stock alert. -/
def bulletLine (item : StockItem) : String :=
  "• **" ++ item.name ++ "** is now in stock!"

/-- Lines joined by newlines: nothing before the first, nothing after the last. -/
def joinLines : List String → String
  | [] => ""
  | [a] => a
  | a :: b :: rest => a ++ "\n" ++ joinLines (b :: rest)

end GrowAGarden
namespace GrowAGarden

/-! ## Concrete inputs for the worked examples -/

/-- A notifier channel with the given id. -/
def exChannel (id : String) : Channel := ⟨id, CHANNEL_NAME, GuildText⟩

/-- A stock body with the items `A` and `B` and a countdown text. -/
def exData : Data := ⟨none, none, none, some [⟨"A"⟩, ⟨"B"⟩], some ⟨some "4m 59s"⟩⟩

/-- A stock body with an empty item list. -/
def exEmptyData : Data := ⟨none, none, none, some [], none⟩

/-- A stock body whose countdown text is present and empty. -/
def exBlankData : Data := ⟨none, none, none, some [⟨"A"⟩], some ⟨some ""⟩⟩

/-- A stock body with one item whose name has 4100 characters, which makes
the description longer than the builder takes. -/
def exLongData : Data :=
  ⟨none, none, none, some [⟨⟨List.replicate 4100 'A'⟩⟩], some ⟨some "4m 59s"⟩⟩

/-- An outside world that answers the refresh request with `refresh`, every
other request with `other`, a send to a group as `send` says, and rejects
every delete and every channel creation. -/
def exEnv (refresh other : Except String Response) (send : GuildId → Except String Message) :
    Env :=
  { now := 0
    clientUserId := "bot"
    clientUserTag := "bot#0001"
    fetch := fun url => if url = BASE_URL ++ "/api/refresh" then refresh else other
    send := fun g _ _ => send g
    delete := fun _ => .error "Unknown Message"
    create := fun _ _ => .error "Missing Permissions" }

/-- A response with status 200 and the given body. -/
def exOk (data : Data) : Except String Response := .ok ⟨200, .ok (some data)⟩

/-- A send oracle: group `g2` rejects, every other group gets the handle `h`. -/
def exSend (h : Message) (g : GuildId) : Except String Message :=
  if g = "g2" then .error "Missing Access" else .ok h

/-- Two registered groups and an empty tracker. -/
def exState : State := ⟨[("g1", exChannel "c1"), ("g2", exChannel "c2")], []⟩

/-- Two registered groups, with a message tracked for `g2` and `gear`. -/
def exTracked : State :=
  ⟨[("g1", exChannel "c1"), ("g2", exChannel "c2")], [("g2:gear", 3)]⟩

/-- A group that already has a notifier channel. -/
def exGuild : Guild :=
  ⟨"g1", "Garden", [⟨"c0", "general", GuildText⟩, exChannel "c1"], "everyone"⟩

end GrowAGarden
namespace GrowAGarden

/-! ## Lemmas on keyed stores -/

theorem assocGet_assocSet_same {β : Type} (k : String) (v : β) (l : List (String × β)) :
    assocGet k (assocSet k v l) = some v := by
  induction l with
  | nil => simp [assocSet, assocGet]
  | cons p rest ih =>
    obtain ⟨k1, v1⟩ := p
    by_cases h : k1 = k
    · simp [assocSet, assocGet, h]
    · simp [assocSet, assocGet, h, ih]

theorem assocGet_assocSet_ne {β : Type} (k k2 : String) (v : β) (l : List (String × β))
    (hne : k2 ≠ k) : assocGet k2 (assocSet k v l) = assocGet k2 l := by
  induction l with
  | nil => simp [assocSet, assocGet, Ne.symm hne]
  | cons p rest ih =>
    obtain ⟨k1, v1⟩ := p
    by_cases h : k1 = k
    · subst h
      simp [assocSet, assocGet, Ne.symm hne]
    · by_cases h2 : k1 = k2
      · subst h2
        simp [assocSet, assocGet, h]
      · simp [assocSet, assocGet, h, h2, ih]

theorem assocGet_of_mem {β : Type} (k : String) (v : β) (l : List (String × β))
    (hnd : (l.map Prod.fst).Nodup) (hmem : (k, v) ∈ l) : assocGet k l = some v := by
  induction l with
  | nil => cases hmem
  | cons p rest ih =>
    obtain ⟨k1, v1⟩ := p
    simp only [List.map_cons, List.nodup_cons] at hnd
    rcases List.mem_cons.mp hmem with h | h
    · cases h
      simp [assocGet]
    · have hk : k1 ≠ k := by
        intro e
        subst e
        exact hnd.1 (List.mem_map.mpr ⟨(k1, v), h, rfl⟩)
      simp [assocGet, hk, ih hnd.2 h]

theorem assocSet_keys_of_mem {β : Type} (k : String) (v : β) (l : List (String × β))
    (hmem : k ∈ l.map Prod.fst) : (assocSet k v l).map Prod.fst = l.map Prod.fst := by
  induction l with
  | nil => cases hmem
  | cons p rest ih =>
    obtain ⟨k1, v1⟩ := p
    by_cases h : k1 = k
    · simp [assocSet, h]
    · have : k ∈ rest.map Prod.fst := by
        rcases List.mem_cons.mp hmem with e | e
        · exact absurd e.symm h
        · exact e
      simp [assocSet, h, ih this]

theorem assocSet_keys_of_not_mem {β : Type} (k : String) (v : β) (l : List (String × β))
    (hmem : k ∉ l.map Prod.fst) : (assocSet k v l).map Prod.fst = l.map Prod.fst ++ [k] := by
  induction l with
  | nil => simp [assocSet]
  | cons p rest ih =>
    obtain ⟨k1, v1⟩ := p
    have h : k1 ≠ k := fun e => hmem (by simp [e])
    have h2 : k ∉ rest.map Prod.fst := fun e => hmem (List.mem_cons_of_mem _ e)
    simp [assocSet, h, ih h2]

theorem assocSet_nodup {β : Type} (k : String) (v : β) (l : List (String × β))
    (hnd : (l.map Prod.fst).Nodup) : ((assocSet k v l).map Prod.fst).Nodup := by
  by_cases hmem : k ∈ l.map Prod.fst
  · rw [assocSet_keys_of_mem k v l hmem]
    exact hnd
  · rw [assocSet_keys_of_not_mem k v l hmem]
    exact List.Nodup.append hnd (List.nodup_singleton k) (by simpa using hmem)

theorem assocSet_idem {β : Type} (k : String) (v : β) (l : List (String × β))
    (h : assocGet k l = some v) : assocSet k v l = l := by
  induction l with
  | nil => simp [assocGet] at h
  | cons p rest ih =>
    obtain ⟨k1, v1⟩ := p
    by_cases hk : k1 = k
    · simp [assocGet, hk] at h
      simp [assocSet, hk, h]
    · simp [assocGet, hk] at h
      simp [assocSet, hk, ih h]

/-! ## Lemmas on tracker keys -/

theorem trackerKey_data (g c : String) : (trackerKey g c).data = g.data ++ ':' :: c.data := by
  simp [trackerKey, String.data_append]

theorem trackerKey_left_inj (g1 g2 c : String) (h : trackerKey g1 c = trackerKey g2 c) :
    g1 = g2 := by
  have hd := congrArg String.data h
  rw [trackerKey_data, trackerKey_data] at hd
  exact String.ext (List.append_cancel_right hd)

/-- Splitting at the last colon: two lists that end in colon-free tails after
a colon agree on both sides of it. -/
theorem colon_split (a b x y : List Char) (hx : ':' ∉ x) (hy : ':' ∉ y)
    (h : a ++ ':' :: x = b ++ ':' :: y) : a = b ∧ x = y := by
  induction a generalizing b with
  | nil =>
    cases b with
    | nil => simpa using h
    | cons d b =>
      simp only [List.nil_append, List.cons_append, List.cons.injEq] at h
      exact absurd (h.2 ▸ (by simp : ':' ∈ b ++ ':' :: y)) hx
  | cons d a ih =>
    cases b with
    | nil =>
      simp only [List.nil_append, List.cons_append, List.cons.injEq] at h
      exact absurd (h.2 ▸ (by simp : ':' ∈ a ++ ':' :: x)) hy
    | cons d2 b =>
      simp only [List.cons_append, List.cons.injEq] at h
      obtain ⟨e1, e2⟩ := ih b h.2
      exact ⟨by rw [h.1, e1], e2⟩

theorem categories_no_colon (c : String) (hc : c ∈ categories) : ':' ∉ c.data := by
  simp only [categories, STOCK_ENDPOINTS, List.map_cons, List.map_nil, List.mem_cons,
    List.mem_singleton, List.not_mem_nil, or_false] at hc
  rcases hc with h | h | h | h | h <;> subst h <;> decide

theorem trackerKey_inj (g1 g2 c1 c2 : String) (h1 : c1 ∈ categories) (h2 : c2 ∈ categories)
    (h : trackerKey g1 c1 = trackerKey g2 c2) : g1 = g2 ∧ c1 = c2 := by
  have hd := congrArg String.data h
  rw [trackerKey_data, trackerKey_data] at hd
  obtain ⟨e1, e2⟩ := colon_split _ _ _ _ (categories_no_colon c1 h1) (categories_no_colon c2 h2) hd
  exact ⟨String.ext e1, String.ext e2⟩

end GrowAGarden
namespace GrowAGarden

/-! ## Lemmas on event records -/

theorem sends_append (a b : List Event) : sends (a ++ b) = sends a ++ sends b := by
  induction a with
  | nil => rfl
  | cons e rest ih => cases e <;> simp [sends, ih]

theorem deletes_append (a b : List Event) : deletes (a ++ b) = deletes a ++ deletes b := by
  induction a with
  | nil => rfl
  | cons e rest ih => cases e <;> simp [deletes, ih]

theorem retractions_append (g : GuildId) (a b : List Event) :
    retractions g (a ++ b) = retractions g a ++ retractions g b := by
  simp [retractions, deletes_append]

theorem sends_retract (env : Env) (g : GuildId) (prev : Option Message) :
    sends (retract env g prev) = [] := by
  cases prev with
  | none => rfl
  | some m =>
    simp only [retract]
    cases env.delete m <;> rfl

theorem deletes_retract (env : Env) (g : GuildId) (prev : Option Message) :
    deletes (retract env g prev) = prev.toList.map fun m => (g, m) := by
  cases prev with
  | none => rfl
  | some m =>
    simp only [retract]
    cases env.delete m <;> rfl

theorem retractions_retract_same (env : Env) (g : GuildId) (prev : Option Message) :
    retractions g (retract env g prev) = prev.toList := by
  cases prev <;> simp [retractions, deletes_retract]

theorem retractions_retract_ne (env : Env) (g g1 : GuildId) (prev : Option Message)
    (hne : g1 ≠ g) : retractions g (retract env g1 prev) = [] := by
  cases prev <;> simp [retractions, deletes_retract, hne]

/-! ## Lemmas on the stock loop -/

theorem stockLoop_cons_ok (env : Env) (type : String) (embed : Embed) (g : GuildId)
    (ch : Channel) (rest : List (GuildId × Channel)) (t : List (String × Message))
    (sent : Message) (h : env.send g ch embed = .ok sent) :
    stockLoop env type embed ((g, ch) :: rest) t =
      ((stockLoop env type embed rest (assocSet (trackerKey g type) sent t)).1,
        retract env g (assocGet (trackerKey g type) t) ++ [Event.send g ch embed] ++
          (stockLoop env type embed rest (assocSet (trackerKey g type) sent t)).2) := by
  simp [stockLoop, h]

theorem stockLoop_cons_error (env : Env) (type : String) (embed : Embed) (g : GuildId)
    (ch : Channel) (rest : List (GuildId × Channel)) (t : List (String × Message))
    (e : String) (h : env.send g ch embed = .error e) :
    stockLoop env type embed ((g, ch) :: rest) t =
      ((stockLoop env type embed rest t).1,
        retract env g (assocGet (trackerKey g type) t) ++
          [Event.send g ch embed,
           Event.warn ("❌ [" ++ g ++ "] Failed to send stock for " ++ type ++ ": " ++ e)] ++
          (stockLoop env type embed rest t).2) := by
  simp [stockLoop, h]

theorem stockLoop_sends (env : Env) (type : String) (embed : Embed)
    (reg : List (GuildId × Channel)) (t : List (String × Message)) :
    sends (stockLoop env type embed reg t).2 = reg.map fun p => (p.1, p.2, embed) := by
  induction reg generalizing t with
  | nil => rfl
  | cons p rest ih =>
    obtain ⟨g, ch⟩ := p
    cases h : env.send g ch embed with
    | ok sent =>
      rw [stockLoop_cons_ok env type embed g ch rest t sent h]
      simp [sends_append, sends_retract, sends, ih]
    | error e =>
      rw [stockLoop_cons_error env type embed g ch rest t e h]
      simp [sends_append, sends_retract, sends, ih]

theorem stockLoop_get_other (env : Env) (type : String) (embed : Embed)
    (reg : List (GuildId × Channel)) (t : List (String × Message)) (k : String)
    (hk : ∀ p ∈ reg, trackerKey p.1 type ≠ k) :
    assocGet k (stockLoop env type embed reg t).1 = assocGet k t := by
  induction reg generalizing t with
  | nil => rfl
  | cons p rest ih =>
    obtain ⟨g, ch⟩ := p
    have hrest : ∀ p ∈ rest, trackerKey p.1 type ≠ k := fun p hp =>
      hk p (List.mem_cons_of_mem _ hp)
    have hg : k ≠ trackerKey g type := Ne.symm (hk (g, ch) (List.mem_cons_self _ _))
    cases h : env.send g ch embed with
    | ok sent =>
      rw [stockLoop_cons_ok env type embed g ch rest t sent h]
      simp only []
      rw [ih _ hrest, assocGet_assocSet_ne _ _ _ _ hg]
    | error e =>
      rw [stockLoop_cons_error env type embed g ch rest t e h]
      exact ih _ hrest

theorem key_ne_of_not_mem (type : String) (g : GuildId) (rest : List (GuildId × Channel))
    (hg : g ∉ rest.map Prod.fst) : ∀ p ∈ rest, trackerKey p.1 type ≠ trackerKey g type := by
  intro p hp e
  have := trackerKey_left_inj _ _ _ e
  exact hg (List.mem_map.mpr ⟨p, hp, this⟩)

theorem stockLoop_get_ok (env : Env) (type : String) (embed : Embed)
    (reg : List (GuildId × Channel)) (t : List (String × Message)) (g : GuildId)
    (ch : Channel) (sent : Message) (hnd : (reg.map Prod.fst).Nodup) (hmem : (g, ch) ∈ reg)
    (hs : env.send g ch embed = .ok sent) :
    assocGet (trackerKey g type) (stockLoop env type embed reg t).1 = some sent := by
  induction reg generalizing t with
  | nil => cases hmem
  | cons p rest ih =>
    obtain ⟨g1, ch1⟩ := p
    simp only [List.map_cons, List.nodup_cons] at hnd
    rcases List.mem_cons.mp hmem with e | e
    · cases e
      rw [stockLoop_cons_ok env type embed g ch rest t sent hs]
      simp only []
      rw [stockLoop_get_other env type embed rest _ _ (key_ne_of_not_mem type g rest hnd.1),
        assocGet_assocSet_same]
    · cases h : env.send g1 ch1 embed with
      | ok s1 =>
        rw [stockLoop_cons_ok env type embed g1 ch1 rest t s1 h]
        exact ih _ hnd.2 e
      | error e1 =>
        rw [stockLoop_cons_error env type embed g1 ch1 rest t e1 h]
        exact ih _ hnd.2 e

theorem stockLoop_get_error (env : Env) (type : String) (embed : Embed)
    (reg : List (GuildId × Channel)) (t : List (String × Message)) (g : GuildId)
    (ch : Channel) (err : String) (hnd : (reg.map Prod.fst).Nodup) (hmem : (g, ch) ∈ reg)
    (hs : env.send g ch embed = .error err) :
    assocGet (trackerKey g type) (stockLoop env type embed reg t).1 =
      assocGet (trackerKey g type) t := by
  induction reg generalizing t with
  | nil => cases hmem
  | cons p rest ih =>
    obtain ⟨g1, ch1⟩ := p
    simp only [List.map_cons, List.nodup_cons] at hnd
    rcases List.mem_cons.mp hmem with e | e
    · cases e
      rw [stockLoop_cons_error env type embed g ch rest t err hs]
      exact stockLoop_get_other env type embed rest _ _ (key_ne_of_not_mem type g rest hnd.1)
    · have hne : trackerKey g type ≠ trackerKey g1 type := by
        intro e2
        have := trackerKey_left_inj _ _ _ e2
        subst this
        exact hnd.1 (List.mem_map.mpr ⟨(g, ch), e, rfl⟩)
      cases h : env.send g1 ch1 embed with
      | ok s1 =>
        rw [stockLoop_cons_ok env type embed g1 ch1 rest t s1 h]
        simp only []
        rw [ih _ hnd.2 e, assocGet_assocSet_ne _ _ _ _ hne]
      | error e1 =>
        rw [stockLoop_cons_error env type embed g1 ch1 rest t e1 h]
        exact ih _ hnd.2 e

theorem stockLoop_retractions_not_mem (env : Env) (type : String) (embed : Embed)
    (reg : List (GuildId × Channel)) (t : List (String × Message)) (g : GuildId)
    (hg : g ∉ reg.map Prod.fst) : retractions g (stockLoop env type embed reg t).2 = [] := by
  induction reg generalizing t with
  | nil => rfl
  | cons p rest ih =>
    obtain ⟨g1, ch1⟩ := p
    have hne : g1 ≠ g := fun e => hg (by simp [e])
    have hrest : g ∉ rest.map Prod.fst := fun e => hg (List.mem_cons_of_mem _ e)
    cases h : env.send g1 ch1 embed with
    | ok s1 =>
      rw [stockLoop_cons_ok env type embed g1 ch1 rest t s1 h]
      simp only [retractions_append, retractions_retract_ne env g g1 _ hne, ih _ hrest]
      simp [retractions, deletes]
    | error e1 =>
      rw [stockLoop_cons_error env type embed g1 ch1 rest t e1 h]
      simp only [retractions_append, retractions_retract_ne env g g1 _ hne, ih _ hrest]
      simp [retractions, deletes]

theorem stockLoop_retractions_mem (env : Env) (type : String) (embed : Embed)
    (reg : List (GuildId × Channel)) (t : List (String × Message)) (g : GuildId)
    (hnd : (reg.map Prod.fst).Nodup) (hg : g ∈ reg.map Prod.fst) :
    retractions g (stockLoop env type embed reg t).2 =
      (assocGet (trackerKey g type) t).toList := by
  induction reg generalizing t with
  | nil => cases hg
  | cons p rest ih =>
    obtain ⟨g1, ch1⟩ := p
    simp only [List.map_cons, List.nodup_cons] at hnd
    by_cases e : g1 = g
    · subst e
      cases h : env.send g1 ch1 embed with
      | ok s1 =>
        rw [stockLoop_cons_ok env type embed g1 ch1 rest t s1 h]
        simp only [retractions_append, retractions_retract_same,
          stockLoop_retractions_not_mem env type embed rest _ g1 hnd.1]
        simp [retractions, deletes]
      | error e1 =>
        rw [stockLoop_cons_error env type embed g1 ch1 rest t e1 h]
        simp only [retractions_append, retractions_retract_same,
          stockLoop_retractions_not_mem env type embed rest _ g1 hnd.1]
        simp [retractions, deletes]
    · have hrest : g ∈ rest.map Prod.fst := by
        rcases List.mem_cons.mp hg with e2 | e2
        · exact absurd e2.symm e
        · exact e2
      have hne : trackerKey g type ≠ trackerKey g1 type := fun e2 =>
        e (trackerKey_left_inj _ _ _ e2).symm
      cases h : env.send g1 ch1 embed with
      | ok s1 =>
        rw [stockLoop_cons_ok env type embed g1 ch1 rest t s1 h]
        simp only [retractions_append, retractions_retract_ne env g g1 _ e, ih _ hnd.2 hrest,
          assocGet_assocSet_ne _ _ _ _ hne]
        simp [retractions, deletes]
      | error e1 =>
        rw [stockLoop_cons_error env type embed g1 ch1 rest t e1 h]
        simp only [retractions_append, retractions_retract_ne env g g1 _ e, ih _ hnd.2 hrest]
        simp [retractions, deletes]

end GrowAGarden
namespace GrowAGarden

/-! ## Lemmas on the checks of the embed builder -/

theorem jsLength_append (a b : String) : jsLength (a ++ b) = jsLength a + jsLength b := by
  simp only [jsLength, String.data_append, List.map_append, List.sum_append]

theorem jsLength_replicate_A (n : Nat) : jsLength ⟨List.replicate n 'A'⟩ = n := by
  have h : (if 'A'.toNat < 0x10000 then 1 else 2) = 1 := by decide
  simp only [jsLength, List.map_replicate, h, List.sum_replicate, smul_eq_mul, mul_one]

/-- A description longer than 4096 code units makes the builder throw. -/
theorem embedError_of_long_description (e : Embed) (d : String) (hd : e.description = some d)
    (hlong : 4096 < jsLength d) : embedError e = some "Received one or more errors" := by
  unfold embedError
  split_ifs with h1 h2 h3 h4 h5 h6
  all_goals first
    | rfl
    | (exfalso
       simp only [hd, lengthWithin, Bool.not_eq_true', decide_eq_false_iff_not, not_and,
         not_le, Bool.not_eq_true, Bool.not_eq_false, decide_eq_true_eq] at h3
       omega)

theorem mem_categories_of_endpoint (type : String) (endpoint : Endpoint)
    (h : assocGet type STOCK_ENDPOINTS = some endpoint) : type ∈ categories := by
  simp only [STOCK_ENDPOINTS, assocGet] at h
  simp only [categories, STOCK_ENDPOINTS, List.map_cons, List.map_nil, List.mem_cons,
    List.mem_singleton, List.not_mem_nil, or_false]
  by_cases h1 : "gear" = type
  · exact Or.inl h1.symm
  by_cases h2 : "seeds" = type
  · exact Or.inr (Or.inl h2.symm)
  by_cases h3 : "egg" = type
  · exact Or.inr (Or.inr (Or.inl h3.symm))
  by_cases h4 : "honey" = type
  · exact Or.inr (Or.inr (Or.inr (Or.inl h4.symm)))
  by_cases h5 : "cosmetics" = type
  · exact Or.inr (Or.inr (Or.inr (Or.inr h5.symm)))
  simp [h1, h2, h3, h4, h5] at h

theorem endpointPath_of_endpoint (type : String) (endpoint : Endpoint)
    (h : assocGet type STOCK_ENDPOINTS = some endpoint) :
    endpointPath type = some endpoint.url := by
  simp [endpointPath, h]

/-- Every name for which line 60 yields an address is free of colons. -/
theorem endpointPath_no_colon (type path : String) (h : endpointPath type = some path) :
    ':' ∉ type.data := by
  unfold endpointPath at h
  cases hep : assocGet type STOCK_ENDPOINTS with
  | some ep => exact categories_no_colon type (mem_categories_of_endpoint type ep hep)
  | none =>
    rw [hep] at h
    by_cases hk : type ∈ OBJECT_PROTOTYPE_KEYS
    · simp only [OBJECT_PROTOTYPE_KEYS, List.mem_cons, List.mem_singleton, List.not_mem_nil,
        or_false] at hk
      rcases hk with h1 | h1 | h1 | h1 | h1 | h1 | h1 | h1 | h1 | h1 | h1 | h1 <;>
        subst h1 <;> decide
    · simp [hk] at h

/-! ## Lemmas on one stock pass -/

theorem fetchAndNotifyStock_fetched (env : Env) (type : String) (st : State) (data : Data)
    (hf : Fetched env type data) (hne : data.items.getD [] ≠ [])
    (hacc : embedError (stockEmbed type data env.now) = none) :
    ∃ url,
      fetchAndNotifyStock env type st =
        ⟨⟨st.stockChannels,
            (stockLoop env type (stockEmbed type data env.now) st.stockChannels
              st.lastStockMessages).1⟩,
          [Event.fetch (BASE_URL ++ "/api/refresh"), Event.fetch url] ++
            (stockLoop env type (stockEmbed type data env.now) st.stockChannels
              st.lastStockMessages).2,
          none⟩ := by
  obtain ⟨ep, r0, res, hep, hr, hs, hj⟩ := hf
  refine ⟨BASE_URL ++ ep.url, ?_⟩
  have hlen : ¬ (data.items.getD []).length = 0 := fun h => hne (List.length_eq_zero.mp h)
  simp [fetchAndNotifyStock, fetchAndNotifyStockTry, fetchAndNotifyStockFrom,
    endpointPath_of_endpoint type ep hep, hr, hs, hj, hlen, hacc]

/-- A pass whose alert the builder refuses ends in the outer `catch`. -/
theorem fetchAndNotifyStock_refused (env : Env) (type : String) (st : State) (data : Data)
    (e : String) (hf : Fetched env type data) (hne : data.items.getD [] ≠ [])
    (href : embedError (stockEmbed type data env.now) = some e) :
    ∃ url,
      fetchAndNotifyStock env type st =
        ⟨st, [Event.fetch (BASE_URL ++ "/api/refresh"), Event.fetch url,
            Event.error ("❌ Error fetching stock for " ++ type ++ ": " ++ e)], none⟩ := by
  obtain ⟨ep, r0, res, hep, hr, hs, hj⟩ := hf
  refine ⟨BASE_URL ++ ep.url, ?_⟩
  have hlen : ¬ (data.items.getD []).length = 0 := fun h => hne (List.length_eq_zero.mp h)
  simp [fetchAndNotifyStock, fetchAndNotifyStockTry, fetchAndNotifyStockFrom,
    endpointPath_of_endpoint type ep hep, hr, hs, hj, hlen, href]

theorem fetchAndNotifyStock_state (env : Env) (type : String) (st : State) (data : Data)
    (hf : Fetched env type data) (hne : data.items.getD [] ≠ [])
    (hacc : embedError (stockEmbed type data env.now) = none) :
    (fetchAndNotifyStock env type st).state =
      ⟨st.stockChannels,
        (stockLoop env type (stockEmbed type data env.now) st.stockChannels
          st.lastStockMessages).1⟩ := by
  obtain ⟨url, h⟩ := fetchAndNotifyStock_fetched env type st data hf hne hacc
  rw [h]

theorem fetchAndNotifyStock_sends (env : Env) (type : String) (st : State) (data : Data)
    (hf : Fetched env type data) (hne : data.items.getD [] ≠ [])
    (hacc : embedError (stockEmbed type data env.now) = none) :
    sends (fetchAndNotifyStock env type st).events =
      st.stockChannels.map fun p => (p.1, p.2, stockEmbed type data env.now) := by
  obtain ⟨url, h⟩ := fetchAndNotifyStock_fetched env type st data hf hne hacc
  rw [h]
  simp [sends_append, sends, stockLoop_sends]

theorem fetchAndNotifyStock_retractions (env : Env) (type : String) (st : State) (data : Data)
    (hf : Fetched env type data) (hne : data.items.getD [] ≠ [])
    (hacc : embedError (stockEmbed type data env.now) = none) (g : GuildId) :
    retractions g (fetchAndNotifyStock env type st).events =
      retractions g (stockLoop env type (stockEmbed type data env.now) st.stockChannels
        st.lastStockMessages).2 := by
  obtain ⟨url, h⟩ := fetchAndNotifyStock_fetched env type st data hf hne hacc
  rw [h]
  simp [retractions, deletes_append, deletes]

/-- Lines 60-86 either leave the state alone and send and retract nothing, or
run the loop on some message. -/
theorem fetchAndNotifyStockFrom_cases (env : Env) (type : String) (st : State) (url : String) :
    (∀ r : Run,
      (match (fetchAndNotifyStockFrom env type st url).thrown with
        | none => fetchAndNotifyStockFrom env type st url
        | some e =>
          ⟨(fetchAndNotifyStockFrom env type st url).state,
            (fetchAndNotifyStockFrom env type st url).events ++
              [Event.error ("❌ Error fetching stock for " ++ type ++ ": " ++ e)], none⟩) = r →
      (r.state = st ∧ sends r.events = [] ∧ deletes r.events = []) ∨
        ∃ embed,
          r.state = ⟨st.stockChannels,
            (stockLoop env type embed st.stockChannels st.lastStockMessages).1⟩ ∧
          deletes r.events =
            deletes (stockLoop env type embed st.stockChannels st.lastStockMessages).2) := by
  intro r hr
  subst hr
  cases hs : env.fetch url with
  | error e => left; simp [fetchAndNotifyStockFrom, hs, sends, deletes]
  | ok res =>
    cases hj : res.json with
    | error e => left; simp [fetchAndNotifyStockFrom, hs, hj, sends, deletes]
    | ok body =>
      cases body with
      | none => left; simp [fetchAndNotifyStockFrom, hs, hj, sends, deletes]
      | some data =>
        by_cases hlen : (data.items.getD []).length = 0
        · left
          simp [fetchAndNotifyStockFrom, hs, hj, List.length_eq_zero.mp hlen, sends, deletes]
        · have hne : ¬ data.items.getD [] = [] := fun h => hlen (by rw [h]; rfl)
          cases hacc : embedError (stockEmbed type data env.now) with
          | some e =>
            left
            simp [fetchAndNotifyStockFrom, hs, hj, hne, hacc, sends, deletes]
          | none =>
            right
            refine ⟨stockEmbed type data env.now, ?_⟩
            simp [fetchAndNotifyStockFrom, hs, hj, hne, hacc, deletes_append, deletes]

/-- Every pass either leaves the state alone and sends and retracts nothing,
or runs the loop on some message, for a colon-free category name. -/
theorem fetchAndNotifyStock_cases (env : Env) (type : String) (st : State) :
    ((fetchAndNotifyStock env type st).state = st ∧
      sends (fetchAndNotifyStock env type st).events = [] ∧
      deletes (fetchAndNotifyStock env type st).events = []) ∨
    ∃ embed, ':' ∉ type.data ∧
      (fetchAndNotifyStock env type st).state =
        ⟨st.stockChannels,
          (stockLoop env type embed st.stockChannels st.lastStockMessages).1⟩ ∧
      deletes (fetchAndNotifyStock env type st).events =
        deletes (stockLoop env type embed st.stockChannels st.lastStockMessages).2 := by
  cases hr : env.fetch (BASE_URL ++ "/api/refresh") with
  | error e => left; simp [fetchAndNotifyStock, fetchAndNotifyStockTry, hr, sends, deletes]
  | ok r0 =>
    cases hp : endpointPath type with
    | none => left; simp [fetchAndNotifyStock, fetchAndNotifyStockTry, hr, hp, sends, deletes]
    | some path =>
      have hrun : fetchAndNotifyStock env type st =
          (match (fetchAndNotifyStockFrom env type st (BASE_URL ++ path)).thrown with
            | none => fetchAndNotifyStockFrom env type st (BASE_URL ++ path)
            | some e =>
              ⟨(fetchAndNotifyStockFrom env type st (BASE_URL ++ path)).state,
                (fetchAndNotifyStockFrom env type st (BASE_URL ++ path)).events ++
                  [Event.error ("❌ Error fetching stock for " ++ type ++ ": " ++ e)],
                none⟩) := by
        simp [fetchAndNotifyStock, fetchAndNotifyStockTry, hr, hp]
      rcases fetchAndNotifyStockFrom_cases env type st (BASE_URL ++ path) _ hrun.symm with
        h | ⟨embed, h1, h2⟩
      · exact Or.inl h
      · exact Or.inr ⟨embed, endpointPath_no_colon type path hp, h1, h2⟩

theorem mem_retractions_of_mem_deletes (g : GuildId) (m : Message) (events : List Event)
    (h : (g, m) ∈ deletes events) : m ∈ retractions g events := by
  simp only [retractions, List.mem_map, List.mem_filter]
  exact ⟨(g, m), ⟨h, by simp⟩, rfl⟩

end GrowAGarden
namespace GrowAGarden

/-! ## Lemmas on the alert text -/

theorem intercalate_go_eq (l : List String) (acc : String) :
    String.intercalate.go acc "\n" l =
      match l with
      | [] => acc
      | b :: rest => acc ++ "\n" ++ joinLines (b :: rest) := by
  induction l generalizing acc with
  | nil => rfl
  | cons b rest ih =>
    simp only [String.intercalate.go]
    rw [ih]
    cases rest with
    | nil => rfl
    | cons c r => simp [joinLines, String.append_assoc]

theorem intercalate_eq_joinLines (l : List String) :
    String.intercalate "\n" l = joinLines l := by
  cases l with
  | nil => rfl
  | cons a rest =>
    simp only [String.intercalate]
    rw [intercalate_go_eq]
    cases rest with
    | nil => rfl
    | cons c r => simp [joinLines]

theorem joinLines_contains (l : List String) (s : String) (hs : s ∈ l) :
    ∃ pre post, joinLines l = pre ++ s ++ post := by
  induction l with
  | nil => cases hs
  | cons a rest ih =>
    cases rest with
    | nil =>
      have : s = a := by simpa using hs
      subst this
      exact ⟨"", "", by simp [joinLines]⟩
    | cons b r =>
      rcases List.mem_cons.mp hs with e | e
      · subst e
        exact ⟨"", "\n" ++ joinLines (b :: r), by simp [joinLines, String.append_assoc]⟩
      · obtain ⟨pre, post, h⟩ := ih e
        exact ⟨a ++ "\n" ++ pre, post, by simp [joinLines, h, String.append_assoc]⟩

theorem stockEmbed_description (type : String) (data : Data) (now : Nat) :
    (stockEmbed type data now).description =
      some (joinLines ((data.items.getD []).map bulletLine)) := by
  simp only [stockEmbed, intercalate_eq_joinLines]
  rfl

theorem stockEmbed_contains (type : String) (data : Data) (now : Nat) (item : StockItem)
    (hi : item ∈ data.items.getD []) :
    ∃ pre post, (stockEmbed type data now).description = some (pre ++ item.name ++ post) := by
  obtain ⟨pre, post, h⟩ :=
    joinLines_contains ((data.items.getD []).map bulletLine) (bulletLine item)
      (List.mem_map.mpr ⟨item, hi, rfl⟩)
  refine ⟨pre ++ "• **", "** is now in stock!" ++ post, ?_⟩
  rw [stockEmbed_description, h]
  simp [bulletLine, String.append_assoc]

end GrowAGarden
namespace GrowAGarden

/-! ## Lemmas on the tracker slot of one group across passes -/

theorem fetchAndNotifyStock_stockChannels (env : Env) (type : String) (st : State) :
    (fetchAndNotifyStock env type st).state.stockChannels = st.stockChannels := by
  rcases fetchAndNotifyStock_cases env type st with h | ⟨embed, _, h, _⟩
  · rw [h.1]
  · rw [h]

theorem retractions_of_deletes_eq (g : GuildId) (a b : List Event)
    (h : deletes a = deletes b) : retractions g a = retractions g b := by
  simp [retractions, h]

theorem retractions_of_deletes_nil (g : GuildId) (events : List Event)
    (h : deletes events = []) : retractions g events = [] := by
  simp [retractions, h]

/-- What a pass retracts for a group is what the tracker held for it. -/
theorem fetchAndNotifyStock_retracts_tracked (env : Env) (type : String) (st : State)
    (g : GuildId) (m : Message) (hnd : (st.stockChannels.map Prod.fst).Nodup)
    (hm : m ∈ retractions g (fetchAndNotifyStock env type st).events) :
    g ∈ st.stockChannels.map Prod.fst ∧
      assocGet (trackerKey g type) st.lastStockMessages = some m := by
  rcases fetchAndNotifyStock_cases env type st with h | ⟨embed, _, _, hdel⟩
  · rw [retractions_of_deletes_nil g _ h.2.2] at hm
    cases hm
  · rw [retractions_of_deletes_eq g _ _ hdel] at hm
    by_cases hg : g ∈ st.stockChannels.map Prod.fst
    · rw [stockLoop_retractions_mem env type _ _ _ g hnd hg] at hm
      exact ⟨hg, by simpa [Option.mem_toList] using hm⟩
    · rw [stockLoop_retractions_not_mem env type _ _ _ g hg] at hm
      cases hm

/-- The slot of a group after a pass: what it held before, or the handle of a
send to that group in this pass. -/
theorem fetchAndNotifyStock_slot (env : Env) (type : String) (st : State) (g : GuildId)
    (hnd : (st.stockChannels.map Prod.fst).Nodup) :
    assocGet (trackerKey g type) (fetchAndNotifyStock env type st).state.lastStockMessages =
        assocGet (trackerKey g type) st.lastStockMessages ∨
      ∃ ch emb sent, env.send g ch emb = .ok sent ∧
        assocGet (trackerKey g type) (fetchAndNotifyStock env type st).state.lastStockMessages =
          some sent := by
  rcases fetchAndNotifyStock_cases env type st with h | ⟨embed, _, hstate, _⟩
  · left
    rw [h.1]
  · rw [hstate]
    by_cases hg : g ∈ st.stockChannels.map Prod.fst
    · obtain ⟨p, hp, rfl⟩ := List.mem_map.mp hg
      cases hs : env.send p.1 p.2 embed with
      | ok sent =>
        right
        exact ⟨p.2, _, sent, hs, stockLoop_get_ok env type _ _ _ p.1 p.2 sent hnd hp hs⟩
      | error err =>
        left
        exact stockLoop_get_error env type _ _ _ p.1 p.2 err hnd hp hs
    · left
      exact stockLoop_get_other env type _ _ _ _ (key_ne_of_not_mem type g _ hg)

/-- Once the slot of a group no longer holds a handle, and no send hands that
handle out again, no later pass retracts it. -/
theorem stockPasses_never_retracts (type : String) (g : GuildId) (h : Message)
    (later : List Env) (st : State) (hnd : (st.stockChannels.map Prod.fst).Nodup)
    (hslot : assocGet (trackerKey g type) st.lastStockMessages ≠ some h)
    (hfresh : ∀ e ∈ later, ∀ ch emb, e.send g ch emb ≠ .ok h) :
    ∀ events ∈ (stockPasses type later st).2, h ∉ retractions g events := by
  induction later generalizing st with
  | nil =>
    intro events he
    cases he
  | cons env rest ih =>
    intro events he
    simp only [stockPasses, List.mem_cons] at he
    rcases he with e | e
    · subst e
      intro hm
      exact hslot (fetchAndNotifyStock_retracts_tracked env type st g h hnd hm).2
    · have hnd2 : ((fetchAndNotifyStock env type st).state.stockChannels.map Prod.fst).Nodup := by
        rw [fetchAndNotifyStock_stockChannels]
        exact hnd
      have hslot2 : assocGet (trackerKey g type)
          (fetchAndNotifyStock env type st).state.lastStockMessages ≠ some h := by
        rcases fetchAndNotifyStock_slot env type st g hnd with e1 | ⟨ch, emb, sent, hs, e1⟩
        · rw [e1]
          exact hslot
        · rw [e1]
          intro e2
          cases e2
          exact hfresh env (List.mem_cons_self _ _) ch emb hs
      exact ih _ hnd2 hslot2 (fun e2 he2 => hfresh e2 (List.mem_cons_of_mem _ he2)) events e

/-- The worked example of an alert the builder refuses: one item with a name
of 4100 characters. -/
theorem exLongData_refused (type : String) (now : Nat) :
    embedError (stockEmbed type exLongData now) = some "Received one or more errors" := by
  apply embedError_of_long_description _ _ (stockEmbed_description type exLongData now)
  have h : joinLines ((exLongData.items.getD []).map bulletLine) =
      "• **" ++ (⟨List.replicate 4100 'A'⟩ : String) ++ "** is now in stock!" := rfl
  rw [h, jsLength_append, jsLength_append, jsLength_replicate_A]
  omega

end GrowAGarden
namespace GrowAGarden

/-! ## Lemmas on group discovery -/

theorem creates_append (a b : List Event) : creates (a ++ b) = creates a ++ creates b := by
  induction a with
  | nil => rfl
  | cons e rest ih => cases e <;> simp [creates, ih]

theorem creates_catchUpCalls : creates catchUpCalls = [] := by
  decide

theorem assocGet_mem_keys {β : Type} (k : String) (v : β) (l : List (String × β))
    (h : assocGet k l = some v) : k ∈ l.map Prod.fst := by
  induction l with
  | nil => simp [assocGet] at h
  | cons p rest ih =>
    obtain ⟨k1, v1⟩ := p
    by_cases hk : k1 = k
    · simp [hk]
    · simp only [assocGet, hk, if_false] at h
      exact List.mem_cons_of_mem _ (ih h)

theorem findChannel_spec (guild : Guild)
    (hhas : ∃ ch ∈ guild.channels, ch.name = CHANNEL_NAME ∧ ch.type = GuildText) :
    ∃ ch, findChannel guild = some ch ∧ ch ∈ guild.channels ∧ ch.name = CHANNEL_NAME ∧
      ch.type = GuildText := by
  cases hfind : findChannel guild with
  | none =>
    obtain ⟨ch, hmem, hname, htype⟩ := hhas
    simp only [findChannel, List.find?_eq_none] at hfind
    exact absurd (by simp [hname, htype]) (hfind ch hmem)
  | some ch =>
    refine ⟨ch, rfl, List.mem_of_find?_eq_some hfind, ?_⟩
    have := List.find?_some hfind
    simpa using this

theorem readyGuild_found (env : Env) (guild : Guild) (st : State) (ch : Channel)
    (hfind : findChannel guild = some ch) :
    readyGuild env guild st =
      ⟨⟨assocSet guild.id ch st.stockChannels, st.lastStockMessages⟩,
        [Event.log ("✅ Found existing 'stock-notifier' in " ++ guild.name)], none⟩ := by
  simp [readyGuild, readyGuildTry, hfind]

theorem guildCreate_found (env : Env) (guild : Guild) (st : State) (ch : Channel)
    (hfind : findChannel guild = some ch) :
    guildCreate env guild st =
      ⟨⟨assocSet guild.id ch st.stockChannels, st.lastStockMessages⟩,
        Event.log ("➕ Joined new guild: " ++ guild.name) :: catchUpCalls, none⟩ := by
  simp [guildCreate, guildCreateTry, hfind]

/-- One discovery run, by either handler, for a group that has the channel. -/
theorem discover_step (env : Env) (guild : Guild) (st : State) (ch : Channel)
    (fromReady : Bool) (hfind : findChannel guild = some ch) :
    (if fromReady then readyGuild env guild st else guildCreate env guild st).state =
        ⟨assocSet guild.id ch st.stockChannels, st.lastStockMessages⟩ ∧
      creates (if fromReady then readyGuild env guild st
        else guildCreate env guild st).events = [] := by
  cases fromReady with
  | true => simp [readyGuild_found env guild st ch hfind, creates]
  | false => simp [guildCreate_found env guild st ch hfind, creates, creates_catchUpCalls]

theorem discover_spec (env : Env) (guild : Guild) (ch : Channel)
    (hfind : findChannel guild = some ch) (handlers : List Bool) (st : State)
    (hnd : (st.stockChannels.map Prod.fst).Nodup) :
    creates (discover env guild handlers st).2 = [] ∧
      ((discover env guild handlers st).1.stockChannels.map Prod.fst).Nodup ∧
      (discover env guild handlers st).1.lastStockMessages = st.lastStockMessages ∧
      (handlers ≠ [] ∨ assocGet guild.id st.stockChannels = some ch →
        assocGet guild.id (discover env guild handlers st).1.stockChannels = some ch) ∧
      (assocGet guild.id st.stockChannels = some ch → (discover env guild handlers st).1 = st) := by
  induction handlers generalizing st with
  | nil =>
    refine ⟨rfl, hnd, rfl, ?_, fun _ => rfl⟩
    rintro (h | h)
    · exact absurd rfl h
    · exact h
  | cons b rest ih =>
    obtain ⟨hstate, hcreates⟩ := discover_step env guild st ch b hfind
    have hnd2 : (((if b then readyGuild env guild st
        else guildCreate env guild st).state).stockChannels.map Prod.fst).Nodup := by
      rw [hstate]
      exact assocSet_nodup _ _ _ hnd
    have hget2 : assocGet guild.id ((if b then readyGuild env guild st
        else guildCreate env guild st).state).stockChannels = some ch := by
      rw [hstate]
      exact assocGet_assocSet_same _ _ _
    obtain ⟨i1, i2, i3, i4, i5⟩ := ih _ hnd2
    simp only [discover]
    refine ⟨?_, i2, ?_, fun _ => i4 (Or.inr hget2), ?_⟩
    · rw [creates_append, hcreates, i1]
      rfl
    · rw [i3, hstate]
    · intro hst
      rw [i5 hget2, hstate, assocSet_idem _ _ _ hst]

end GrowAGarden
namespace GrowAGarden

/-! ## Lemmas on the requests of one stock pass -/

theorem fetches_append (a b : List Event) : fetches (a ++ b) = fetches a ++ fetches b := by
  induction a with
  | nil => rfl
  | cons e rest ih => cases e <;> simp [fetches, ih]

theorem fetches_retract (env : Env) (g : GuildId) (prev : Option Message) :
    fetches (retract env g prev) = [] := by
  cases prev with
  | none => rfl
  | some m =>
    simp only [retract]
    cases env.delete m <;> rfl

theorem fetches_stockLoop (env : Env) (type : String) (embed : Embed)
    (reg : List (GuildId × Channel)) (t : List (String × Message)) :
    fetches (stockLoop env type embed reg t).2 = [] := by
  induction reg generalizing t with
  | nil => rfl
  | cons p rest ih =>
    obtain ⟨g, ch⟩ := p
    cases h : env.send g ch embed with
    | ok sent =>
      rw [stockLoop_cons_ok env type embed g ch rest t sent h]
      simp [fetches_append, fetches_retract, fetches, ih]
    | error e =>
      rw [stockLoop_cons_error env type embed g ch rest t e h]
      simp [fetches_append, fetches_retract, fetches, ih]

/-- Once the refresh request has resolved, a pass for an own key of
`STOCK_ENDPOINTS` issues the stock request, whatever follows. -/
theorem fetchAndNotifyStock_fetches (env : Env) (type : String) (st : State) (r0 : Response)
    (endpoint : Endpoint) (hr : env.fetch (BASE_URL ++ "/api/refresh") = .ok r0)
    (hep : assocGet type STOCK_ENDPOINTS = some endpoint) :
    fetches (fetchAndNotifyStock env type st).events =
      [BASE_URL ++ "/api/refresh", BASE_URL ++ endpoint.url] := by
  have hp := endpointPath_of_endpoint type endpoint hep
  cases hs : env.fetch (BASE_URL ++ endpoint.url) with
  | error e =>
    simp [fetchAndNotifyStock, fetchAndNotifyStockTry, fetchAndNotifyStockFrom, hr, hp, hs,
      fetches]
  | ok res =>
    cases hj : res.json with
    | error e =>
      simp [fetchAndNotifyStock, fetchAndNotifyStockTry, fetchAndNotifyStockFrom, hr, hp, hs,
        hj, fetches]
    | ok body =>
      cases body with
      | none =>
        simp [fetchAndNotifyStock, fetchAndNotifyStockTry, fetchAndNotifyStockFrom, hr, hp, hs,
          hj, fetches]
      | some data =>
        by_cases hlen : (data.items.getD []).length = 0
        · simp [fetchAndNotifyStock, fetchAndNotifyStockTry, fetchAndNotifyStockFrom, hr, hp,
            hs, hj, List.length_eq_zero.mp hlen, fetches]
        · have hne : ¬ data.items.getD [] = [] := fun h => hlen (by rw [h]; rfl)
          cases hacc : embedError (stockEmbed type data env.now) with
          | some e =>
            simp [fetchAndNotifyStock, fetchAndNotifyStockTry, fetchAndNotifyStockFrom, hr, hp,
              hs, hj, hne, hacc, fetches]
          | none =>
            simp [fetchAndNotifyStock, fetchAndNotifyStockTry, fetchAndNotifyStockFrom, hr, hp,
              hs, hj, hne, hacc, fetches, fetches_stockLoop]

/-- A pass that sent something had an alert the builder accepted. -/
theorem accepted_of_sent (env : Env) (type : String) (st : State) (data : Data)
    (hf : Fetched env type data) (hne : data.items.getD [] ≠ [])
    (s : GuildId × Channel × Embed) (hs : s ∈ sends (fetchAndNotifyStock env type st).events) :
    embedError (stockEmbed type data env.now) = none := by
  cases hacc : embedError (stockEmbed type data env.now) with
  | none => rfl
  | some e =>
    obtain ⟨url, h⟩ := fetchAndNotifyStock_refused env type st data e hf hne hacc
    rw [h] at hs
    simp [sends] at hs

end GrowAGarden
namespace GrowAGarden

/-! ## Claims on one stock pass -/

/-- C1, refuted as stated: a stock body with a non-empty item list, one item
whose name has 4100 characters, two registered groups and sends that all
succeed: the builder refuses the description, the pass ends in the outer
`catch`, nothing is sent and the tracker stays empty. -/
theorem C1_counterexample :
    exLongData.items.getD [] ≠ [] ∧
      sends (fetchAndNotifyStock (exEnv (exOk exEmptyData) (exOk exLongData) fun g => .ok g.length)
        "gear" exState).events = [] ∧
      (fetchAndNotifyStock (exEnv (exOk exEmptyData) (exOk exLongData) fun g => .ok g.length)
        "gear" exState).state = exState := by
  have hne : exLongData.items.getD [] ≠ [] := List.cons_ne_nil _ _
  obtain ⟨url, h⟩ := fetchAndNotifyStock_refused
    (exEnv (exOk exEmptyData) (exOk exLongData) fun g => .ok g.length) "gear" exState exLongData
    _ ⟨⟨"/api/stock/gear", 300000⟩, _, _, rfl, rfl, rfl, rfl⟩ hne (exLongData_refused "gear" _)
  rw [h]
  exact ⟨hne, rfl, rfl⟩

/-- C1, amended: when the stock fetch of a pass yields a body with a non-empty
item list, the builder accepts the alert built from it, and every send
succeeds, the pass sends exactly one message per registry entry, in registry
order, the description of that message contains the name of every item, and
afterwards the tracker maps the key of every registered group and the
category to the handle that group's send returned. -/
theorem C1_one_send_per_destination (env : Env) (type : String) (st : State) (data : Data)
    (hnd : (st.stockChannels.map Prod.fst).Nodup)
    (hf : Fetched env type data) (hne : data.items.getD [] ≠ [])
    (hacc : embedError (stockEmbed type data env.now) = none)
    (hok : ∀ p ∈ st.stockChannels,
      ∃ h, env.send p.1 p.2 (stockEmbed type data env.now) = .ok h) :
    sends (fetchAndNotifyStock env type st).events =
        (st.stockChannels.map fun p => (p.1, p.2, stockEmbed type data env.now)) ∧
      (∀ item ∈ data.items.getD [], ∃ pre post,
        (stockEmbed type data env.now).description = some (pre ++ item.name ++ post)) ∧
      ∀ p ∈ st.stockChannels,
        ∃ h, env.send p.1 p.2 (stockEmbed type data env.now) = .ok h ∧
          assocGet (trackerKey p.1 type)
            (fetchAndNotifyStock env type st).state.lastStockMessages = some h := by
  refine ⟨fetchAndNotifyStock_sends env type st data hf hne hacc,
    fun item hi => stockEmbed_contains type data env.now item hi, ?_⟩
  intro p hp
  obtain ⟨h, hs⟩ := hok p hp
  refine ⟨h, hs, ?_⟩
  rw [fetchAndNotifyStock_state env type st data hf hne hacc]
  exact stockLoop_get_ok env type _ _ _ p.1 p.2 h hnd hp hs

theorem C1_witness :
    sends (fetchAndNotifyStock (exEnv (exOk exEmptyData) (exOk exData) fun g => .ok g.length)
        "gear" exState).events =
      [("g1", exChannel "c1", stockEmbed "gear" exData 0),
       ("g2", exChannel "c2", stockEmbed "gear" exData 0)] :=
  (C1_one_send_per_destination (exEnv (exOk exEmptyData) (exOk exData) fun g => .ok g.length)
    "gear" exState exData (by decide)
    ⟨⟨"/api/stock/gear", 300000⟩, _, _, rfl, rfl, rfl, rfl⟩ (by decide) (by decide)
    (fun p _ => ⟨p.1.length, rfl⟩)).1

/-- C2: when the stock fetch of a pass yields a body whose item list is
missing or empty, the pass sends nothing, retracts nothing and leaves both
the tracker and the registry as they were. -/
theorem C2_empty_items (env : Env) (type : String) (st : State) (data : Data)
    (hf : Fetched env type data) (hempty : data.items = none ∨ data.items = some []) :
    (fetchAndNotifyStock env type st).state = st ∧
      sends (fetchAndNotifyStock env type st).events = [] ∧
      deletes (fetchAndNotifyStock env type st).events = [] ∧
      (fetchAndNotifyStock env type st).thrown = none := by
  obtain ⟨ep, r0, res, hep, hr, hs, hj⟩ := hf
  have hd : data.items.getD [] = [] := by
    rcases hempty with h | h <;> simp [h]
  simp [fetchAndNotifyStock, fetchAndNotifyStockTry, fetchAndNotifyStockFrom,
    endpointPath_of_endpoint type ep hep, hr, hs, hj, hd, sends, deletes]

theorem C2_witness :
    (fetchAndNotifyStock (exEnv (exOk exEmptyData) (exOk exEmptyData) (exSend 7))
        "gear" exTracked).state = exTracked :=
  (C2_empty_items (exEnv (exOk exEmptyData) (exOk exEmptyData) (exSend 7)) "gear" exTracked
    exEmptyData ⟨⟨"/api/stock/gear", 300000⟩, _, _, rfl, rfl, rfl, rfl⟩ (Or.inr rfl)).1

/-- C3, refuted as stated: a stock body with a non-empty item list, one item
whose name has 4100 characters, and a send oracle under which the send to
`g1` would succeed: the builder refuses the description before the loop, so
no send is attempted and the entry of `g1` is not set. -/
theorem C3_counterexample :
    exLongData.items.getD [] ≠ [] ∧ exSend 7 "g1" = .ok 7 ∧
      sends (fetchAndNotifyStock (exEnv (exOk exEmptyData) (exOk exLongData) (exSend 7))
        "gear" exState).events = [] ∧
      assocGet (trackerKey "g1" "gear")
        (fetchAndNotifyStock (exEnv (exOk exEmptyData) (exOk exLongData) (exSend 7))
          "gear" exState).state.lastStockMessages = none := by
  have hne : exLongData.items.getD [] ≠ [] := List.cons_ne_nil _ _
  obtain ⟨url, h⟩ := fetchAndNotifyStock_refused
    (exEnv (exOk exEmptyData) (exOk exLongData) (exSend 7)) "gear" exState exLongData
    _ ⟨⟨"/api/stock/gear", 300000⟩, _, _, rfl, rfl, rfl, rfl⟩ hne (exLongData_refused "gear" _)
  rw [h]
  exact ⟨hne, rfl, rfl, rfl⟩

/-- C3, amended: when the stock fetch of a pass yields a body with a non-empty
item list and the builder accepts the alert built from it, the pass attempts
one send per registry entry whatever the outcomes of the sends are, and every
group whose own send succeeds is sent the message and has its tracker entry
set to the handle of that send. -/
theorem C3_fan_out_isolation (env : Env) (type : String) (st : State) (data : Data)
    (hnd : (st.stockChannels.map Prod.fst).Nodup)
    (hf : Fetched env type data) (hne : data.items.getD [] ≠ [])
    (hacc : embedError (stockEmbed type data env.now) = none) :
    sends (fetchAndNotifyStock env type st).events =
        (st.stockChannels.map fun p => (p.1, p.2, stockEmbed type data env.now)) ∧
      ∀ g ch h, (g, ch) ∈ st.stockChannels →
        env.send g ch (stockEmbed type data env.now) = .ok h →
        (g, ch, stockEmbed type data env.now) ∈ sends (fetchAndNotifyStock env type st).events ∧
          assocGet (trackerKey g type)
            (fetchAndNotifyStock env type st).state.lastStockMessages = some h := by
  refine ⟨fetchAndNotifyStock_sends env type st data hf hne hacc, ?_⟩
  intro g ch h hmem hs
  constructor
  · rw [fetchAndNotifyStock_sends env type st data hf hne hacc]
    exact List.mem_map.mpr ⟨(g, ch), hmem, rfl⟩
  · rw [fetchAndNotifyStock_state env type st data hf hne hacc]
    exact stockLoop_get_ok env type _ _ _ g ch h hnd hmem hs

theorem C3_witness :
    assocGet (trackerKey "g1" "gear")
      (fetchAndNotifyStock (exEnv (exOk exEmptyData) (exOk exData) (exSend 7)) "gear"
        ⟨[("g2", exChannel "c2"), ("g1", exChannel "c1")], []⟩).state.lastStockMessages =
      some 7 :=
  ((C3_fan_out_isolation (exEnv (exOk exEmptyData) (exOk exData) (exSend 7)) "gear"
    ⟨[("g2", exChannel "c2"), ("g1", exChannel "c1")], []⟩ exData (by decide)
    ⟨⟨"/api/stock/gear", 300000⟩, _, _, rfl, rfl, rfl, rfl⟩ (by decide) (by decide)).2
      "g1" (exChannel "c1") 7 (by decide) rfl).2

/-- C4: when the weather request fails, `fetchAndNotifyWeather` sends nothing,
retracts nothing, leaves the state as it was and returns without throwing; and
when the stock request of a category fails, `fetchAndNotifyStock` does the
same, whatever the refresh request answered.  A request fails when it throws
or when its body fails to decode.  In both passes the error is thrown inside
the `try` block and ends as a console line. -/
theorem C4_fetch_failure (env : Env) (st : State) :
    (FetchFails env (BASE_URL ++ "/api/weather") →
      (fetchAndNotifyWeather env st).state = st ∧
        sends (fetchAndNotifyWeather env st).events = [] ∧
        deletes (fetchAndNotifyWeather env st).events = [] ∧
        (fetchAndNotifyWeather env st).thrown = none ∧
        (fetchAndNotifyWeatherTry env st).thrown ≠ none) ∧
      ∀ type endpoint, assocGet type STOCK_ENDPOINTS = some endpoint →
        FetchFails env (BASE_URL ++ endpoint.url) →
        (fetchAndNotifyStock env type st).state = st ∧
          sends (fetchAndNotifyStock env type st).events = [] ∧
          deletes (fetchAndNotifyStock env type st).events = [] ∧
          (fetchAndNotifyStock env type st).thrown = none ∧
          (fetchAndNotifyStockTry env type st).thrown ≠ none := by
  constructor
  · rintro (⟨e, he⟩ | ⟨res, e, hres, he⟩)
    · simp [fetchAndNotifyWeather, fetchAndNotifyWeatherTry, he, sends, deletes]
    · simp [fetchAndNotifyWeather, fetchAndNotifyWeatherTry, hres, he, sends, deletes]
  · intro type ep hep hfail
    cases hr : env.fetch (BASE_URL ++ "/api/refresh") with
    | error e0 => simp [fetchAndNotifyStock, fetchAndNotifyStockTry, hr, sends, deletes]
    | ok r0 =>
      have hp := endpointPath_of_endpoint type ep hep
      rcases hfail with ⟨e, he⟩ | ⟨res, e, hres, he⟩
      · simp [fetchAndNotifyStock, fetchAndNotifyStockTry, fetchAndNotifyStockFrom, hr, hp, he,
          sends, deletes]
      · simp [fetchAndNotifyStock, fetchAndNotifyStockTry, fetchAndNotifyStockFrom, hr, hp,
          hres, he, sends, deletes]

theorem C4_witness :
    ((fetchAndNotifyWeather (exEnv (exOk exEmptyData) (.error "ECONNRESET") (exSend 7))
        exTracked).state = exTracked ∧
      sends (fetchAndNotifyWeather (exEnv (exOk exEmptyData) (.error "ECONNRESET") (exSend 7))
        exTracked).events = []) ∧
    ((fetchAndNotifyStock (exEnv (exOk exEmptyData) (.ok ⟨502, .error "Unexpected token"⟩)
        (exSend 7)) "egg" exTracked).state = exTracked ∧
      sends (fetchAndNotifyStock (exEnv (exOk exEmptyData) (.ok ⟨502, .error "Unexpected token"⟩)
        (exSend 7)) "egg" exTracked).events = []) :=
  ⟨⟨((C4_fetch_failure (exEnv (exOk exEmptyData) (.error "ECONNRESET") (exSend 7))
        exTracked).1 (Or.inl ⟨_, rfl⟩)).1,
      ((C4_fetch_failure (exEnv (exOk exEmptyData) (.error "ECONNRESET") (exSend 7))
        exTracked).1 (Or.inl ⟨_, rfl⟩)).2.1⟩,
    ⟨((C4_fetch_failure (exEnv (exOk exEmptyData) (.ok ⟨502, .error "Unexpected token"⟩)
        (exSend 7)) exTracked).2 "egg" ⟨"/api/stock/egg", 1800000⟩ rfl
        (Or.inr ⟨_, _, rfl, rfl⟩)).1,
      ((C4_fetch_failure (exEnv (exOk exEmptyData) (.ok ⟨502, .error "Unexpected token"⟩)
        (exSend 7)) exTracked).2 "egg" ⟨"/api/stock/egg", 1800000⟩ rfl
        (Or.inr ⟨_, _, rfl, rfl⟩)).2.1⟩⟩

end GrowAGarden
namespace GrowAGarden

/-! ## Claims on the refresh request and on the tracker across passes -/

/-- C5, refuted as stated: with a refresh request that throws, a stock request
that would answer the items `A` and `B`, and two registered groups, the pass
issues the refresh request only and sends nothing, while the same pass with a
refresh request that resolves sends to both groups. -/
theorem C5_counterexample :
    fetches (fetchAndNotifyStock (exEnv (.error "ECONNRESET") (exOk exData) fun g => .ok g.length)
        "gear" exState).events = [BASE_URL ++ "/api/refresh"] ∧
      sends (fetchAndNotifyStock (exEnv (.error "ECONNRESET") (exOk exData) fun g => .ok g.length)
        "gear" exState).events = [] ∧
      (sends (fetchAndNotifyStock (exEnv (exOk exEmptyData) (exOk exData) fun g => .ok g.length)
        "gear" exState).events).length = 2 := by
  decide

/-- C5, amended: the answer of a refresh request that resolves is ignored,
whatever its status and body: the stock request is issued next, and when it
yields items and the builder accepts the alert, one send per registry entry
is made.  A refresh request that throws ends the pass: no stock request, no
send, no retraction, the state as it was, the error on the console, and a
normal return. -/
theorem C5_refresh_outcome (env : Env) (type : String) (st : State) :
    (∀ r0 endpoint, env.fetch (BASE_URL ++ "/api/refresh") = .ok r0 →
        assocGet type STOCK_ENDPOINTS = some endpoint →
        fetches (fetchAndNotifyStock env type st).events =
            [BASE_URL ++ "/api/refresh", BASE_URL ++ endpoint.url] ∧
          ∀ res data, env.fetch (BASE_URL ++ endpoint.url) = .ok res →
            res.json = .ok (some data) → data.items.getD [] ≠ [] →
            embedError (stockEmbed type data env.now) = none →
            sends (fetchAndNotifyStock env type st).events =
              st.stockChannels.map fun p => (p.1, p.2, stockEmbed type data env.now)) ∧
      ∀ e, env.fetch (BASE_URL ++ "/api/refresh") = .error e →
        fetchAndNotifyStock env type st =
          ⟨st, [Event.fetch (BASE_URL ++ "/api/refresh"),
              Event.error ("❌ Error fetching stock for " ++ type ++ ": " ++ e)], none⟩ := by
  constructor
  · intro r0 ep hr hep
    refine ⟨fetchAndNotifyStock_fetches env type st r0 ep hr hep, ?_⟩
    intro res data hs hj hne hacc
    exact fetchAndNotifyStock_sends env type st data ⟨ep, r0, res, hep, hr, hs, hj⟩ hne hacc
  · intro e he
    simp [fetchAndNotifyStock, fetchAndNotifyStockTry, he]

theorem C5_witness :
    sends (fetchAndNotifyStock
        (exEnv (.ok ⟨500, .error "Unexpected token"⟩) (exOk exData) fun g => .ok g.length)
        "gear" exState).events =
      [("g1", exChannel "c1", stockEmbed "gear" exData 0),
       ("g2", exChannel "c2", stockEmbed "gear" exData 0)] ∧
    fetchAndNotifyStock (exEnv (.error "ECONNRESET") (exOk exData) fun g => .ok g.length)
        "gear" exState =
      ⟨exState, [Event.fetch (BASE_URL ++ "/api/refresh"),
        Event.error ("❌ Error fetching stock for " ++ "gear" ++ ": " ++ "ECONNRESET")], none⟩ :=
  ⟨((C5_refresh_outcome
      (exEnv (.ok ⟨500, .error "Unexpected token"⟩) (exOk exData) fun g => .ok g.length)
      "gear" exState).1 _ ⟨"/api/stock/gear", 300000⟩ rfl rfl).2 _ exData rfl rfl
      (by decide) (by decide),
    (C5_refresh_outcome (exEnv (.error "ECONNRESET") (exOk exData) fun g => .ok g.length)
      "gear" exState).2 "ECONNRESET" rfl⟩

/-- C6: three consecutive passes for one category, each with items and each
sending to a registered group `g` with success, with handles `h1`, `h2`,
`h3`, starting with no entry for `g`: the first pass retracts nothing for
`g`, the second retracts exactly `h1`, the third exactly `h2`, and after each
pass the entry of `g` is the handle of that pass.  Nothing is assumed on the
outcomes of the retractions. -/
theorem C6_single_slot_swap (type : String) (st : State) (g : GuildId) (ch : Channel)
    (e1 e2 e3 : Env) (d1 d2 d3 : Data) (h1 h2 h3 : Message)
    (hnd : (st.stockChannels.map Prod.fst).Nodup) (hmem : (g, ch) ∈ st.stockChannels)
    (hnone : assocGet (trackerKey g type) st.lastStockMessages = none)
    (hf1 : Fetched e1 type d1) (hn1 : d1.items.getD [] ≠ [])
    (hsent1 : (g, ch, stockEmbed type d1 e1.now) ∈
      sends (fetchAndNotifyStock e1 type st).events)
    (hs1 : e1.send g ch (stockEmbed type d1 e1.now) = .ok h1)
    (hf2 : Fetched e2 type d2) (hn2 : d2.items.getD [] ≠ [])
    (hsent2 : (g, ch, stockEmbed type d2 e2.now) ∈
      sends (fetchAndNotifyStock e2 type (fetchAndNotifyStock e1 type st).state).events)
    (hs2 : e2.send g ch (stockEmbed type d2 e2.now) = .ok h2)
    (hf3 : Fetched e3 type d3) (hn3 : d3.items.getD [] ≠ [])
    (hsent3 : (g, ch, stockEmbed type d3 e3.now) ∈
      sends (fetchAndNotifyStock e3 type
        (fetchAndNotifyStock e2 type (fetchAndNotifyStock e1 type st).state).state).events)
    (hs3 : e3.send g ch (stockEmbed type d3 e3.now) = .ok h3) :
    retractions g (fetchAndNotifyStock e1 type st).events = [] ∧
      assocGet (trackerKey g type) (fetchAndNotifyStock e1 type st).state.lastStockMessages =
        some h1 ∧
      retractions g
        (fetchAndNotifyStock e2 type (fetchAndNotifyStock e1 type st).state).events = [h1] ∧
      assocGet (trackerKey g type)
        (fetchAndNotifyStock e2 type
          (fetchAndNotifyStock e1 type st).state).state.lastStockMessages = some h2 ∧
      retractions g
        (fetchAndNotifyStock e3 type
          (fetchAndNotifyStock e2 type
            (fetchAndNotifyStock e1 type st).state).state).events = [h2] ∧
      assocGet (trackerKey g type)
        (fetchAndNotifyStock e3 type
          (fetchAndNotifyStock e2 type
            (fetchAndNotifyStock e1 type st).state).state).state.lastStockMessages = some h3 := by
  have hg : g ∈ st.stockChannels.map Prod.fst := List.mem_map.mpr ⟨(g, ch), hmem, rfl⟩
  have step : ∀ (env : Env) (s : State) (d : Data) (h : Message),
      s.stockChannels = st.stockChannels → Fetched env type d → d.items.getD [] ≠ [] →
      (g, ch, stockEmbed type d env.now) ∈ sends (fetchAndNotifyStock env type s).events →
      env.send g ch (stockEmbed type d env.now) = .ok h →
      retractions g (fetchAndNotifyStock env type s).events =
          (assocGet (trackerKey g type) s.lastStockMessages).toList ∧
        assocGet (trackerKey g type) (fetchAndNotifyStock env type s).state.lastStockMessages =
          some h ∧
        (fetchAndNotifyStock env type s).state.stockChannels = st.stockChannels := by
    intro env s d h hreg hf hn hsent hs
    have hacc := accepted_of_sent env type s d hf hn _ hsent
    refine ⟨?_, ?_, ?_⟩
    · rw [fetchAndNotifyStock_retractions env type s d hf hn hacc]
      exact stockLoop_retractions_mem env type _ _ _ g (hreg ▸ hnd) (hreg ▸ hg)
    · rw [fetchAndNotifyStock_state env type s d hf hn hacc]
      exact stockLoop_get_ok env type _ _ _ g ch h (hreg ▸ hnd) (hreg ▸ hmem) hs
    · rw [fetchAndNotifyStock_stockChannels, hreg]
  obtain ⟨a1, b1, c1⟩ := step e1 st d1 h1 rfl hf1 hn1 hsent1 hs1
  obtain ⟨a2, b2, c2⟩ := step e2 _ d2 h2 c1 hf2 hn2 hsent2 hs2
  obtain ⟨a3, b3, _⟩ := step e3 _ d3 h3 c2 hf3 hn3 hsent3 hs3
  rw [hnone] at a1
  rw [b1] at a2
  rw [b2] at a3
  exact ⟨a1, b1, a2, b2, a3, b3⟩

theorem C6_witness :
    retractions "g1"
      (fetchAndNotifyStock (exEnv (exOk exEmptyData) (exOk exData) (exSend 23)) "gear"
        (fetchAndNotifyStock (exEnv (exOk exEmptyData) (exOk exData) (exSend 22)) "gear"
          (fetchAndNotifyStock (exEnv (exOk exEmptyData) (exOk exData) (exSend 21)) "gear"
            exState).state).state).events = [22] :=
  (C6_single_slot_swap "gear" exState "g1" (exChannel "c1")
    (exEnv (exOk exEmptyData) (exOk exData) (exSend 21))
    (exEnv (exOk exEmptyData) (exOk exData) (exSend 22))
    (exEnv (exOk exEmptyData) (exOk exData) (exSend 23))
    exData exData exData 21 22 23 (by decide) (by decide) (by decide)
    ⟨⟨"/api/stock/gear", 300000⟩, _, _, rfl, rfl, rfl, rfl⟩ (by decide) (by decide) rfl
    ⟨⟨"/api/stock/gear", 300000⟩, _, _, rfl, rfl, rfl, rfl⟩ (by decide) (by decide) rfl
    ⟨⟨"/api/stock/gear", 300000⟩, _, _, rfl, rfl, rfl, rfl⟩ (by decide) (by decide)
    rfl).2.2.2.2.1

end GrowAGarden
namespace GrowAGarden

/-- C7, refuted as stated: with the handle 3 tracked for `g2` and `gear`, and
two passes in which the send to `g2` is rejected, both passes try to retract
the handle 3 and the tracker still holds it after each of them. -/
theorem C7_counterexample :
    (stockPasses "gear"
        [exEnv (exOk exEmptyData) (exOk exData) (exSend 7),
         exEnv (exOk exEmptyData) (exOk exData) (exSend 8)] exTracked).2.map
          (retractions "g2") = [[3], [3]] ∧
      assocGet (trackerKey "g2" "gear")
        (fetchAndNotifyStock (exEnv (exOk exEmptyData) (exOk exData) (exSend 7)) "gear"
          exTracked).state.lastStockMessages = some 3 := by
  decide

/-- C7, amended: a pass with items and an alert the builder accepts, run
with a handle `h` tracked for a registered group, tries to retract `h`
exactly once, whatever the outcome of the retraction.  When the send to the
group is rejected the entry stays `h`.  When the send succeeds the entry
becomes the new handle in that same pass, and if the new handle differs from
`h` no later pass, in any sequence of passes with any outcomes of fetches,
builder checks, retractions and sends, tries to retract `h` again, as long as
no send to the group returns `h` anew. -/
theorem C7_retract_then_overwrite (type : String) (st : State) (g : GuildId) (ch : Channel)
    (env : Env) (data : Data) (h : Message)
    (hnd : (st.stockChannels.map Prod.fst).Nodup) (hmem : (g, ch) ∈ st.stockChannels)
    (htracked : assocGet (trackerKey g type) st.lastStockMessages = some h)
    (hf : Fetched env type data) (hne : data.items.getD [] ≠ [])
    (hacc : embedError (stockEmbed type data env.now) = none) :
    retractions g (fetchAndNotifyStock env type st).events = [h] ∧
      (∀ err, env.send g ch (stockEmbed type data env.now) = .error err →
        assocGet (trackerKey g type) (fetchAndNotifyStock env type st).state.lastStockMessages =
          some h) ∧
      ∀ sent, env.send g ch (stockEmbed type data env.now) = .ok sent →
        assocGet (trackerKey g type) (fetchAndNotifyStock env type st).state.lastStockMessages =
            some sent ∧
          (sent ≠ h → ∀ later : List Env,
            (∀ e ∈ later, ∀ c emb, e.send g c emb ≠ .ok h) →
            ∀ events ∈ (stockPasses type later (fetchAndNotifyStock env type st).state).2,
              h ∉ retractions g events) := by
  have hg : g ∈ st.stockChannels.map Prod.fst := List.mem_map.mpr ⟨(g, ch), hmem, rfl⟩
  refine ⟨?_, ?_, ?_⟩
  · rw [fetchAndNotifyStock_retractions env type st data hf hne hacc,
      stockLoop_retractions_mem env type _ _ _ g hnd hg, htracked]
    rfl
  · intro err hs
    rw [fetchAndNotifyStock_state env type st data hf hne hacc,
      stockLoop_get_error env type _ _ _ g ch err hnd hmem hs, htracked]
  · intro sent hs
    have hslot : assocGet (trackerKey g type)
        (fetchAndNotifyStock env type st).state.lastStockMessages = some sent := by
      rw [fetchAndNotifyStock_state env type st data hf hne hacc]
      exact stockLoop_get_ok env type _ _ _ g ch sent hnd hmem hs
    refine ⟨hslot, ?_⟩
    intro hfresh later hlater
    apply stockPasses_never_retracts type g h later _ _ _ hlater
    · rw [fetchAndNotifyStock_stockChannels]
      exact hnd
    · rw [hslot]
      intro e
      cases e
      exact hfresh rfl

theorem C7_witness :
    retractions "g2"
        (fetchAndNotifyStock (exEnv (exOk exEmptyData) (exOk exData) fun g => .ok g.length)
          "gear" exTracked).events = [3] ∧
      assocGet (trackerKey "g2" "gear")
        (fetchAndNotifyStock (exEnv (exOk exEmptyData) (exOk exData) fun g => .ok g.length)
          "gear" exTracked).state.lastStockMessages = some 2 :=
  ⟨(C7_retract_then_overwrite "gear" exTracked "g2" (exChannel "c2")
      (exEnv (exOk exEmptyData) (exOk exData) fun g => .ok g.length) exData 3
      (by decide) (by decide) (by decide)
      ⟨⟨"/api/stock/gear", 300000⟩, _, _, rfl, rfl, rfl, rfl⟩ (by decide) (by decide)).1,
    ((C7_retract_then_overwrite "gear" exTracked "g2" (exChannel "c2")
      (exEnv (exOk exEmptyData) (exOk exData) fun g => .ok g.length) exData 3
      (by decide) (by decide) (by decide)
      ⟨⟨"/api/stock/gear", 300000⟩, _, _, rfl, rfl, rfl, rfl⟩ (by decide)
      (by decide)).2.2 2 rfl).1⟩

/-! ## Claim on the alert text -/

/-- C8, refuted as stated: with one item and a countdown whose formatted text
is present and empty, the message sent carries `Unknown` as its next update,
not the formatted text. -/
theorem C8_counterexample :
    exBlankData.countdown = some ⟨some ""⟩ ∧
      (sends (fetchAndNotifyStock (exEnv (exOk exEmptyData) (exOk exBlankData) (exSend 7)) "gear"
        ⟨[("g1", exChannel "c1")], []⟩).events).map (fun s => s.2.2.fields) =
        [[⟨"⏳ Next Update", "Unknown", false⟩]] := by
  decide

/-- C8, amended: every message a pass with items sends has as title the
category in upper case between the plant sign and the words STOCK ALERT, as
description one bullet line per item, in body order, joined by newlines, and
one field named Next Update whose value is the formatted countdown text when
that text is present and not empty, and `Unknown` when the countdown is
missing, its formatted text is missing, or that text is empty. -/
theorem C8_alert_format (env : Env) (type : String) (st : State) (data : Data)
    (hf : Fetched env type data) (hne : data.items.getD [] ≠ []) :
    categories.map toUpperCase = ["GEAR", "SEEDS", "EGG", "HONEY", "COSMETICS"] ∧
      type ∈ categories ∧
      ∀ s ∈ sends (fetchAndNotifyStock env type st).events,
        s.2.2.title = "🪴 " ++ toUpperCase type ++ " STOCK ALERT" ∧
          s.2.2.description = some (joinLines ((data.items.getD []).map bulletLine)) ∧
          ∃ value, s.2.2.fields = [⟨"⏳ Next Update", value, false⟩] ∧
            (∀ text, data.countdown = some ⟨some text⟩ → text ≠ "" → value = text) ∧
            (data.countdown = none ∨ data.countdown = some ⟨none⟩ ∨
              data.countdown = some ⟨some ""⟩ → value = "Unknown") := by
  refine ⟨by decide, ?_, ?_⟩
  · obtain ⟨ep, _, _, hep, _⟩ := hf
    exact mem_categories_of_endpoint type ep hep
  · intro s hs
    have hacc := accepted_of_sent env type st data hf hne s hs
    rw [fetchAndNotifyStock_sends env type st data hf hne hacc] at hs
    obtain ⟨p, _, rfl⟩ := List.mem_map.mp hs
    refine ⟨rfl, stockEmbed_description type data env.now, _, rfl, ?_, ?_⟩
    · intro text hc hnb
      simp [hc, orDefault, hnb]
    · rintro (hc | hc | hc) <;> simp [hc, orDefault]

theorem C8_witness :
    (stockEmbed "gear" exData 0).title = "🪴 " ++ toUpperCase "gear" ++ " STOCK ALERT" ∧
      (stockEmbed "gear" exData 0).description =
        some (joinLines ((exData.items.getD []).map bulletLine)) :=
  have h := (C8_alert_format (exEnv (exOk exEmptyData) (exOk exData) (exSend 7)) "gear" exState
    exData ⟨⟨"/api/stock/gear", 300000⟩, _, _, rfl, rfl, rfl, rfl⟩ (by decide)).2.2
    ("g1", exChannel "c1", stockEmbed "gear" exData 0) (by decide)
  ⟨h.1, h.2.1⟩

end GrowAGarden
namespace GrowAGarden

/-! ## Claim on group discovery -/

/-- C9: for a group whose cached channels include a text channel with the
notifier name, any non-empty sequence of discovery runs, each by the loop body
of `ready` or by `guildCreate`, issues no channel creation request, leaves
the registry mapping the group to that existing channel (the first such
channel of the cache), and leaves exactly one registry entry for the group;
a run on a registry that already maps the group to that channel changes
nothing. -/
theorem C9_discovery_idempotent (env : Env) (guild : Guild) (st : State)
    (handlers : List Bool) (hnd : (st.stockChannels.map Prod.fst).Nodup)
    (hhas : ∃ ch ∈ guild.channels, ch.name = CHANNEL_NAME ∧ ch.type = GuildText)
    (hrun : handlers ≠ []) :
    ∃ ch, findChannel guild = some ch ∧ ch ∈ guild.channels ∧ ch.name = CHANNEL_NAME ∧
      ch.type = GuildText ∧
      creates (discover env guild handlers st).2 = [] ∧
      assocGet guild.id (discover env guild handlers st).1.stockChannels = some ch ∧
      ((discover env guild handlers st).1.stockChannels.map Prod.fst).count guild.id = 1 ∧
      ∀ again : List Bool,
        (discover env guild again (discover env guild handlers st).1).1 =
          (discover env guild handlers st).1 := by
  obtain ⟨ch, hfind, hmem, hname, htype⟩ := findChannel_spec guild hhas
  obtain ⟨h1, h2, _, h4, _⟩ := discover_spec env guild ch hfind handlers st hnd
  have hget := h4 (Or.inl hrun)
  refine ⟨ch, hfind, hmem, hname, htype, h1, hget, ?_, ?_⟩
  · exact List.count_eq_one_of_mem h2 (assocGet_mem_keys _ _ _ hget)
  · intro again
    exact (discover_spec env guild ch hfind again _ h2).2.2.2.2 hget

theorem C9_witness :
    creates (discover
        (exEnv (exOk exEmptyData) (exOk exData) (exSend 7)) exGuild [true, false, false]
        exState).2 = [] ∧
      assocGet "g1" (discover
        (exEnv (exOk exEmptyData) (exOk exData) (exSend 7)) exGuild [true, false, false]
        exState).1.stockChannels = some (exChannel "c1") ∧
      ((discover
        (exEnv (exOk exEmptyData) (exOk exData) (exSend 7)) exGuild [true, false, false]
        exState).1.stockChannels.map Prod.fst).count "g1" = 1 := by
  obtain ⟨ch, hfind, _, _, _, h1, h2, h3, _⟩ :=
    C9_discovery_idempotent (exEnv (exOk exEmptyData) (exOk exData) (exSend 7)) exGuild exState
      [true, false, false] (by decide) ⟨exChannel "c1", by decide, by decide, by decide⟩
      (by decide)
  have hch : ch = exChannel "c1" := by
    have : findChannel exGuild = some (exChannel "c1") := by decide
    rw [this] at hfind
    exact (Option.some.inj hfind).symm
  subst hch
  exact ⟨h1, h2, h3⟩

/-! ## Claim on the separation of tracker slots -/

/-- C10: the tracker keys of two (group, category) pairs over the fixed
categories are equal only when the groups and the categories are equal; a
pass for a category retracts only handles the tracker held for a registered
group and that category, and leaves every tracker entry under any other key
as it was, so the entry of another category or of an unregistered group is
neither retracted nor overwritten. -/
theorem C10_slots_separate :
    (∀ g1 g2 c1 c2 : String, c1 ∈ categories → c2 ∈ categories →
        trackerKey g1 c1 = trackerKey g2 c2 → g1 = g2 ∧ c1 = c2) ∧
      ∀ (env : Env) (type : String) (st : State),
        (∀ k, (∀ g ∈ st.stockChannels.map Prod.fst, k ≠ trackerKey g type) →
          assocGet k (fetchAndNotifyStock env type st).state.lastStockMessages =
            assocGet k st.lastStockMessages) ∧
        (∀ g c, c ∈ categories → c ≠ type ∨ g ∉ st.stockChannels.map Prod.fst →
          assocGet (trackerKey g c) (fetchAndNotifyStock env type st).state.lastStockMessages =
            assocGet (trackerKey g c) st.lastStockMessages) ∧
        ((st.stockChannels.map Prod.fst).Nodup →
          ∀ g m, (g, m) ∈ deletes (fetchAndNotifyStock env type st).events →
            g ∈ st.stockChannels.map Prod.fst ∧
              assocGet (trackerKey g type) st.lastStockMessages = some m) := by
  refine ⟨trackerKey_inj, ?_⟩
  intro env type st
  have frame : ∀ k, (∀ g ∈ st.stockChannels.map Prod.fst, k ≠ trackerKey g type) →
      assocGet k (fetchAndNotifyStock env type st).state.lastStockMessages =
        assocGet k st.lastStockMessages := by
    intro k hk
    rcases fetchAndNotifyStock_cases env type st with h | ⟨embed, _, hstate, _⟩
    · rw [h.1]
    · rw [hstate]
      exact stockLoop_get_other env type _ _ _ k
        (fun p hp => Ne.symm (hk p.1 (List.mem_map.mpr ⟨p, hp, rfl⟩)))
  refine ⟨frame, ?_, ?_⟩
  · intro g c hc hdiff
    rcases fetchAndNotifyStock_cases env type st with h | ⟨embed, hcolon, _, _⟩
    · rw [h.1]
    · apply frame
      intro g2 hg2 e
      have hd := congrArg String.data e
      rw [trackerKey_data, trackerKey_data] at hd
      obtain ⟨e1, e2⟩ := colon_split _ _ _ _ (categories_no_colon c hc) hcolon hd
      rcases hdiff with hd2 | hd2
      · exact hd2 (String.ext e2)
      · exact hd2 (String.ext e1 ▸ hg2)
  · intro hnd g m hmem
    exact fetchAndNotifyStock_retracts_tracked env type st g m hnd
      (mem_retractions_of_mem_deletes g m _ hmem)

theorem C10_witness :
    assocGet (trackerKey "g2" "gear")
        (fetchAndNotifyStock (exEnv (exOk exEmptyData) (exOk exData) fun g => .ok g.length)
          "seeds" exTracked).state.lastStockMessages =
      assocGet (trackerKey "g2" "gear") exTracked.lastStockMessages :=
  (C10_slots_separate.2 (exEnv (exOk exEmptyData) (exOk exData) fun g => .ok g.length)
    "seeds" exTracked).2.1 "g2" "gear" (by decide) (Or.inl (by decide))

end GrowAGarden
